import Mathlib

/-!
# Goal approval workflow of the attendance server

A shallow embedding of the goal routes of `src/server.js` (schema at lines
255-281, handlers at lines 6329-7015) and the properties of the approval
state machine that hold, or fail, on them; then of the two pure functions
`computeAIRecommendations` (lines 783-829) and `computePretestScore` (lines
833-893).

Modelling conventions.

* Mongo `ObjectId`s are natural numbers; the source compares them through
  `toString()`, so only equality matters.
* A field that may be `undefined`/`null` is an `Option`.  For the two
  `required` strings `title` and `ownerName` the empty string also stands for
  a missing value: the `required` validator refuses both in the same way.
* Form values arrive already well formed for the schema type they are cast
  to (an `approverId` is an ObjectId or absent, `progress` is an integer or
  absent, `deadline` is a date or absent).
* The collections are lists in insertion order; a handler maps a database and
  a request to a response and the database it leaves behind.
* An exception escaping a handler is the response `Response.raised`; whatever
  had been written before it stays written.
* `ensureOwnerName` is called by the handlers but `server.js` neither
  declares nor imports it, so evaluating the call raises a ReferenceError.
  The handlers take the callee as an argument `ensureOwnerName : Goal →
  Option Goal` (`none` is a call that raises, `some g` a call that returns
  leaving the in-memory document as `g`), and the program of `server.js` is
  the handlers at `undeclaredEnsureOwnerName`, the callee that raises.  A
  property is stated either of that program or of the handlers at every
  callee, which covers it.
-/

namespace Dxpro

/-- Mongo ObjectId values of users, employees and goals. -/
abbrev ObjectId := Nat

/-- The `enum` of `goalSchema.status` (line 266), seven values. -/
inductive Status
  | draft | pending1 | approved1 | pending2 | approved2 | completed | rejected
  deriving DecidableEq, Repr

/-- The `enum` of `goalSchema.history.action` (line 270). -/
inductive Action
  | create | edit | delete | evaluate | submit1 | approve1 | reject1 | submit2 | approve2 | reject2
  deriving DecidableEq, Repr

/-- One element of `goalSchema.history`; `by_` is the field `by`. -/
structure HistoryEntry where
  action : Action
  by_ : Option ObjectId
  date : Nat
  comment : Option String
  deriving DecidableEq, Repr

/-- A document of the `Goal` collection (`goalSchema`, lines 255-280). -/
structure Goal where
  _id : ObjectId
  title : String
  description : Option String
  ownerId : Option ObjectId
  ownerName : String
  createdBy : Option ObjectId
  createdByName : Option String
  progress : Option Int
  grade : Option String
  deadline : Option Nat
  status : Status
  currentApprover : Option ObjectId
  history : List HistoryEntry
  goalLevel : Option String
  actionPlan : Option String
  createdAt : Nat
  deriving DecidableEq, Repr

/-- The fields of an `Employee` document that the goal routes read. -/
structure Employee where
  _id : ObjectId
  userId : ObjectId
  name : String
  deriving DecidableEq, Repr

/-- The fields of `req.session` that the goal routes read; `userIsAdmin` is
`req.session.user?.isAdmin`. -/
structure Session where
  userId : Option ObjectId
  isAdmin : Bool
  userIsAdmin : Bool
  deriving DecidableEq, Repr

/-- The fields of `req.body` read by the goal routes. -/
structure Body where
  title : String
  description : Option String
  goalLevel : Option String
  deadline : Option Nat
  actionPlan : Option String
  approverId : Option ObjectId
  resubmit : Bool
  progress : Option Int
  grade : Option String
  comment : Option String
  deriving DecidableEq, Repr

/-- A request: session, `req.params.id`, body, whether the content type is
JSON, the clock (`new Date()`) and the ObjectId a new document would get. -/
structure Request where
  session : Session
  id : ObjectId
  body : Body
  json : Bool
  now : Nat
  newId : ObjectId
  deriving DecidableEq, Repr

/-- What the handler answers. -/
inductive Response
  | redirect (path : String)
  | status (code : Nat) (message : String)
  | send (message : String)
  | json (ok : Bool)
  | raised
  deriving DecidableEq, Repr

/-- The two collections the goal routes touch. -/
structure Db where
  employees : List Employee
  goals : List Goal
  deriving DecidableEq, Repr

/-- `Employee.findOne({ userId })`. -/
def Db.findEmployeeByUserId (db : Db) (userId : ObjectId) : Option Employee :=
  db.employees.find? (fun e => e.userId == userId)

/-- `Employee.findById(id)`; an absent id finds nothing. -/
def Db.findEmployeeById (db : Db) (id : Option ObjectId) : Option Employee :=
  match id with
  | none => none
  | some i => db.employees.find? (fun e => e._id == i)

/-- `Goal.findById(id)`. -/
def Db.findGoalById (db : Db) (id : ObjectId) : Option Goal :=
  db.goals.find? (fun g => g._id == id)

/-- The validators declared in `goalSchema`: `title` and `ownerName` are
`required`, `goalLevel` is one of three values when present. -/
def validate (g : Goal) : Bool :=
  g.title != "" && g.ownerName != "" &&
    (match g.goalLevel with
     | none => true
     | some l => l == "低" || l == "中" || l == "高")

/-- `goal.save()` on a loaded document: `none` when validation refuses it,
otherwise the stored document with the same `_id` is replaced.  The defaults
that mongoose fills into a loaded document lacking a path (`progress` 0,
`goalLevel` "中") are left out: every document the routes of `server.js`
store has both paths (`AsCreated`). -/
def Db.save (db : Db) (g : Goal) : Option Db :=
  if validate g then
    some { db with goals := db.goals.map (fun x => if x._id == g._id then g else x) }
  else none

/-- `doc.save()` on a new document: refused by validation or by an `_id`
already present, appended otherwise. -/
def Db.insert (db : Db) (g : Goal) : Option Db :=
  if validate g && (db.findGoalById g._id).isNone then
    some { db with goals := db.goals ++ [g] }
  else none

/-- `Goal.deleteOne({ _id })`. -/
def Db.deleteOne (db : Db) (id : ObjectId) : Db :=
  { db with goals := db.goals.eraseP (fun g => g._id == id) }

/-- `req.session.isAdmin || req.session.user?.isAdmin`. -/
def Session.admin (s : Session) : Bool :=
  s.isAdmin || s.userIsAdmin

/-- The middleware `requireLogin` (line 387) in front of a handler body. -/
def requireLogin (req : Request) (db : Db) (next : ObjectId → Response × Db) : Response × Db :=
  match req.session.userId with
  | none => (.redirect "/login", db)
  | some userId => next userId

/-- `history.find(h => h.action === 'submit1' && h.by)`. -/
def firstSubmit (history : List HistoryEntry) : Option HistoryEntry :=
  history.find? (fun h => h.action == Action.submit1 && h.by_.isSome)

/-- `isCreatorOfGoal` (lines 6371-6393).  A stored `by` is an ObjectId, so
the fallback compares it with the employee id; the branch for `by` values
that are plain strings does not arise for documents cast by the schema. -/
def isCreatorOfGoal (goal : Option Goal) (employee : Option Employee) : Bool :=
  match employee, goal with
  | some e, some g =>
    if g.createdBy == some e._id then true
    else
      match firstSubmit g.history with
      | some h => h.by_ == some e._id
      | none => false
  | _, _ => false

/-- The guard `!isAdmin && goal.currentApprover.toString() !== employee._id.toString()`
of the four approver routes; `none` is the TypeError raised when the goal,
its `currentApprover` or the employee is missing where it is dereferenced. -/
def notApprover (isAdmin : Bool) (goal : Option Goal) (employee : Option Employee) : Option Bool :=
  if isAdmin then some false
  else
    match goal with
    | none => none
    | some g =>
      match g.currentApprover with
      | none => none
      | some a =>
        match employee with
        | none => none
        | some e => some (a != e._id)

/-- The tail `await ensureOwnerName(goal); await goal.save();` of a handler,
followed by the given response. -/
def finish (ensureOwnerName : Goal → Option Goal) (db : Db) (goal : Goal) (resp : Response) : Response × Db :=
  match ensureOwnerName goal with
  | none => (.raised, db)
  | some g =>
    match db.save g with
    | none => (.raised, db)
    | some db' => (resp, db')

/-- The document built by `POST /goals/add` (lines 6339-6356), with its
initial history entry. -/
def newGoal (employee : Employee) (req : Request) : Goal :=
  { _id := req.newId
    title := req.body.title
    description := req.body.description
    ownerId := some employee._id
    ownerName := if employee.name == "" then "（未設定）" else employee.name
    createdBy := some employee._id
    createdByName := some employee.name
    progress := some 0
    grade := none
    deadline := req.body.deadline
    status := .draft
    currentApprover := req.body.approverId
    history := [{ action := .create, by_ := some employee._id, date := req.now, comment := some "作成" }]
    goalLevel :=
      if req.body.goalLevel == some "低" || req.body.goalLevel == some "中" || req.body.goalLevel == some "高"
      then req.body.goalLevel else some "中"
    actionPlan := some (req.body.actionPlan.getD "")
    createdAt := req.now }

/-- Route `POST /goals/add` (lines 6329-6368). -/
def add (db : Db) (req : Request) : Response × Db :=
  requireLogin req db fun userId =>
    match db.findEmployeeByUserId userId with
    | none => (.status 400 "Employee not found", db)
    | some employee =>
      if req.body.title == "" then (.status 400 "Title required", db)
      else
        match db.insert (newGoal employee req) with
        | some db' => (if req.json then .json true else .redirect "/goals", db')
        | none => (if req.json then .json false else .status 500 "Error", db)

/-- Route `GET /goals/submit1/:id` (lines 6442-6457). -/
def submit1 (ensureOwnerName : Goal → Option Goal) (db : Db) (req : Request) : Response × Db :=
  requireLogin req db fun userId =>
    match db.findEmployeeByUserId userId with
    | none => (.status 404 "社員情報が見つかりません", db)
    | some employee =>
      match db.findGoalById req.id with
      | none => (.status 404 "目標が見つかりません", db)
      | some goal =>
        if !req.session.admin && !isCreatorOfGoal (some goal) (some employee) then
          (.status 403 "権限なし", db)
        else
          finish ensureOwnerName db
            { goal with
              status := .pending1
              history := goal.history ++
                [{ action := .submit1, by_ := some employee._id, date := req.now, comment := none }] }
            (.redirect "/goals")

/-- Route `GET /goals/approve1/:id` (lines 6460-6470). -/
def approve1 (ensureOwnerName : Goal → Option Goal) (db : Db) (req : Request) : Response × Db :=
  requireLogin req db fun userId =>
    let employee := db.findEmployeeByUserId userId
    let goal := db.findGoalById req.id
    match notApprover req.session.admin goal employee with
    | none => (.raised, db)
    | some true => (.status 403 "権限なし", db)
    | some false =>
      match goal with
      | none => (.raised, db)
      | some goal =>
        finish ensureOwnerName db
          { goal with
            status := .approved1
            history := goal.history ++
              [{ action := .approve1
                 by_ := some (match employee with
                              | some e => e._id
                              | none => userId)
                 date := req.now, comment := none }] }
          (.redirect "/goals")

/-- Route `POST /goals/reject1/:id` (lines 6494-6515). -/
def reject1 (ensureOwnerName : Goal → Option Goal) (db : Db) (req : Request) : Response × Db :=
  requireLogin req db fun userId =>
    let employee := db.findEmployeeByUserId userId
    match db.findGoalById req.id with
    | none => (.status 404 "目標が見つかりません", db)
    | some goal =>
      match notApprover req.session.admin (some goal) employee with
      | none => (.raised, db)
      | some true => (.status 403 "権限なし", db)
      | some false =>
        match employee with
        | none => (.raised, db)
        | some employee =>
          finish ensureOwnerName db
            { goal with
              status := .rejected
              history := goal.history ++
                [{ action := .reject1, by_ := some employee._id, date := req.now, comment := req.body.comment }] }
            (.redirect "/goals/approval")

/-- Route `POST /goals/evaluate/:id` (lines 6553-6577). -/
def evaluate (ensureOwnerName : Goal → Option Goal) (db : Db) (req : Request) : Response × Db :=
  requireLogin req db fun userId =>
    match db.findGoalById req.id with
    | none => (.status 404 "目標が見つかりません", db)
    | some goal =>
      if goal.status != .approved1 then (.status 403 "評価入力不可", db)
      else
        let viewerEmp := db.findEmployeeByUserId userId
        let isCreator :=
          match viewerEmp with
          | none => false
          | some v =>
            match goal.createdBy with
            | some c => c == v._id
            | none => goal.ownerId == some v._id
        if !isCreator && !req.session.admin then (.status 403 "権限なし", db)
        else
          match db.findEmployeeById req.body.approverId with
          | none => (.status 400 "承認者が不正です", db)
          | some approverEmp =>
            finish ensureOwnerName db
              { goal with
                progress := req.body.progress
                grade := req.body.grade
                status := .pending2
                currentApprover := some approverEmp._id
                history := goal.history ++
                  [{ action := .submit2
                     by_ := some (match viewerEmp with
                                  | some e => e._id
                                  | none => userId)
                     date := req.now, comment := none }] }
              (.redirect "/goals")

/-- Route `POST /goals/reject2/:id` (lines 6601-6623). -/
def reject2 (ensureOwnerName : Goal → Option Goal) (db : Db) (req : Request) : Response × Db :=
  requireLogin req db fun userId =>
    let employee := db.findEmployeeByUserId userId
    match db.findGoalById req.id with
    | none => (.status 404 "目標が見つかりません", db)
    | some goal =>
      match notApprover req.session.admin (some goal) employee with
      | none => (.raised, db)
      | some true => (.status 403 "権限なし", db)
      | some false =>
        match employee with
        | none => (.raised, db)
        | some employee =>
          finish ensureOwnerName db
            { goal with
              status := .rejected
              history := goal.history ++
                [{ action := .reject2, by_ := some employee._id, date := req.now, comment := req.body.comment }] }
            (.redirect "/goals/approval")

/-- Route `GET /goals/approve2/:id` (lines 6626-6649). -/
def approve2 (ensureOwnerName : Goal → Option Goal) (db : Db) (req : Request) : Response × Db :=
  requireLogin req db fun userId =>
    match db.findEmployeeByUserId userId with
    | none => (.status 404 "社員情報が見つかりません", db)
    | some employee =>
      match db.findGoalById req.id with
      | none => (.status 404 "目標が見つかりません", db)
      | some goal =>
        match notApprover req.session.admin (some goal) (some employee) with
        | none => (.raised, db)
        | some true => (.status 403 "権限なし", db)
        | some false =>
          finish ensureOwnerName db
            { goal with
              status := .completed
              history := goal.history ++
                [{ action := .approve2, by_ := some employee._id, date := req.now, comment := none }] }
            (.redirect "/goals/approval")

/-- The creator id computed by the edit and delete routes (lines 6886-6891,
6947-6952): `createdBy`, else the `by` of the first `submit1` entry. -/
def creatorId (goal : Goal) : Option ObjectId :=
  match goal.createdBy with
  | some c => some c
  | none =>
    match firstSubmit goal.history with
    | some h => h.by_
    | none => none

/-- The `action` of the last history entry, `null` for an empty history
(line 6916). -/
def lastAction (goal : Goal) : Option Action :=
  goal.history.getLast?.map (fun h => h.action)

/-- The resubmission block of the edit route (lines 6914-6931): the
in-memory document before the second `ensureOwnerName`/`save`. -/
def resubmitted (goal : Goal) (employee : Employee) (now : Nat) : Goal :=
  if lastAction goal == some Action.reject2 then
    { goal with
      status := .pending2
      history := goal.history ++
        [{ action := .submit2, by_ := some employee._id, date := now, comment := none }] }
  else
    { goal with
      status := .pending1
      currentApprover := if goal.ownerId.isSome then goal.ownerId else goal.currentApprover
      history := goal.history ++
        [{ action := .submit1, by_ := some employee._id, date := now, comment := none }] }

/-- The tail of the edit route (lines 6910-6933): first save, then the
resubmission block when the `resubmit` button was used. -/
def editSave (ensureOwnerName : Goal → Option Goal) (db : Db) (req : Request) (employee : Employee)
    (goal : Goal) : Response × Db :=
  match ensureOwnerName goal with
  | none => (.raised, db)
  | some goal =>
    match db.save goal with
    | none => (.raised, db)
    | some db1 =>
      if req.body.resubmit then
        finish ensureOwnerName db1 (resubmitted goal employee req.now) (.redirect "/goals")
      else (.redirect "/goals", db1)

/-- Route `POST /goals/edit/:id` (lines 6877-6934). -/
def edit (ensureOwnerName : Goal → Option Goal) (db : Db) (req : Request) : Response × Db :=
  requireLogin req db fun userId =>
    match db.findGoalById req.id with
    | none => (.status 404 "目標が見つかりません", db)
    | some goal =>
      match db.findEmployeeByUserId userId with
      | none => (.status 404 "社員情報が見つかりません", db)
      | some employee =>
        if !(creatorId goal == some employee._id) then (.status 403 "権限なし", db)
        else if !(goal.status == .draft || goal.status == .approved1 || goal.status == .rejected) then
          (.status 403 "権限なし", db)
        else
          let goal : Goal :=
            { goal with
              title := req.body.title
              description := req.body.description
              deadline := req.body.deadline
              goalLevel := req.body.goalLevel
              actionPlan := req.body.actionPlan }
          match req.body.approverId with
          | none => editSave ensureOwnerName db req employee goal
          | some a =>
            match db.findEmployeeById (some a) with
            | none => (.status 400 "承認者が不正です", db)
            | some approverEmp =>
              editSave ensureOwnerName db req employee { goal with currentApprover := some approverEmp._id }

/-- Route `GET /goals/delete/:id` (lines 6937-6964). -/
def delete (db : Db) (req : Request) : Response × Db :=
  requireLogin req db fun userId =>
    match db.findGoalById req.id with
    | none => (.status 404 "目標が見つかりません", db)
    | some goal =>
      match db.findEmployeeByUserId userId with
      | none => (.status 404 "社員情報が見つかりません", db)
      | some employee =>
        if !(creatorId goal == some employee._id) then (.status 403 "権限なし", db)
        else (.redirect "/goals", db.deleteOne goal._id)

/-- The middleware `isAdmin` (line 394) in front of a handler body: it reads
`req.session.isAdmin` only. -/
def isAdmin (req : Request) (db : Db) (next : Response × Db) : Response × Db :=
  if req.session.isAdmin then next else (.status 403 "管理者権限が必要です", db)

/-- Route `GET /goals/admin-fix/:id` (lines 6967-6992). -/
def adminFix (db : Db) (req : Request) : Response × Db :=
  requireLogin req db fun userId =>
    isAdmin req db <|
      match db.findGoalById req.id with
      | none => (.status 404 "目標が見つかりません", db)
      | some goal =>
        match goal.currentApprover with
        | none => (.status 400 "currentApprover が未設定です", db)
        | some a =>
          match db.findEmployeeById (some a) with
          | none => (.status 400 "承認者(Employee)が見つかりません", db)
          | some approverEmp =>
            let originalOwner := goal.ownerId
            let goal : Goal := { goal with ownerId := some approverEmp._id, ownerName := approverEmp.name }
            let goal : Goal :=
              if goal.status == .draft then
                { goal with
                  status := .pending1
                  history := goal.history ++
                    [{ action := .submit1
                       by_ := some (match originalOwner with
                                    | some o => o
                                    | none => userId)
                       date := req.now, comment := some "admin-fix" }] }
              else goal
            match db.save goal with
            | none => (.status 500 "Internal server error", db)
            | some db' => (.send "fixed", db')

/-- The `for` loop of `admin-fix-drafts` (lines 6999-7009) over the drafts
found by the query, with the database and the count so far. -/
def adminFixDraftsLoop (now : Nat) : List Goal → Db → Nat → Response × Db
  | [], db, count => (.send ("fixed " ++ toString count), db)
  | g :: drafts, db, count =>
    match db.findEmployeeById g.currentApprover with
    | none => adminFixDraftsLoop now drafts db count
    | some approverEmp =>
      let originalOwner := g.ownerId
      let g : Goal :=
        { g with
          ownerId := some approverEmp._id
          ownerName := approverEmp.name
          status := .pending1
          history := g.history ++
            [{ action := .submit1, by_ := originalOwner, date := now, comment := some "admin-fix-batch" }] }
      match db.save g with
      | none => (.status 500 "Internal server error", db)
      | some db' => adminFixDraftsLoop now drafts db' (count + 1)

/-- Route `GET /goals/admin-fix-drafts` (lines 6995-7015). -/
def adminFixDrafts (db : Db) (req : Request) : Response × Db :=
  requireLogin req db fun _ =>
    isAdmin req db <|
      adminFixDraftsLoop req.now
        (db.goals.filter (fun g => g.status == .draft && g.currentApprover.isSome)) db 0

/-- The goal routes that write to the `Goal` collection through the
workflow.  The remaining writer, `admin-backfill-createdBy` (lines
7017-7043), assigns `createdBy` and `createdByName` of goals that have no
`createdBy`; every goal stored by `POST /goals/add` has one. -/
inductive Route
  | add | submit1 | approve1 | reject1 | evaluate | approve2 | reject2 | edit | delete
  | adminFix | adminFixDrafts
  deriving DecidableEq, Repr

/-- Dispatch of a request to its handler. -/
def handle (ensureOwnerName : Goal → Option Goal) : Route → Db → Request → Response × Db
  | .add => add
  | .submit1 => submit1 ensureOwnerName
  | .approve1 => approve1 ensureOwnerName
  | .reject1 => reject1 ensureOwnerName
  | .evaluate => evaluate ensureOwnerName
  | .approve2 => approve2 ensureOwnerName
  | .reject2 => reject2 ensureOwnerName
  | .edit => edit ensureOwnerName
  | .delete => delete
  | .adminFix => adminFix
  | .adminFixDrafts => adminFixDrafts

/-- Databases that arise from an empty `Goal` collection by goal requests;
the `Employee` collection is written by other routes and may change freely
between requests. -/
inductive Reachable (ensureOwnerName : Goal → Option Goal) : Db → Prop
  | init (employees : List Employee) : Reachable ensureOwnerName { employees := employees, goals := [] }
  | employees {db : Db} (es : List Employee) :
      Reachable ensureOwnerName db → Reachable ensureOwnerName { db with employees := es }
  | step {db : Db} (route : Route) (req : Request) :
      Reachable ensureOwnerName db → Reachable ensureOwnerName (handle ensureOwnerName route db req).2

/-- A callee in the place of `ensureOwnerName` that, when it returns, has
changed nothing but `ownerName`; the callee that raises is one. -/
def TouchesOwnerNameOnly (ensureOwnerName : Goal → Option Goal) : Prop :=
  ∀ g g', ensureOwnerName g = some g' → g' = { g with ownerName := g'.ownerName }

/-- A callee that returns and leaves the document as it is.  It is not the
program of `server.js`; it instantiates statements made for every callee. -/
def keepOwnerName : Goal → Option Goal :=
  fun g => some g

/-- The stored status of the goal with the given id, if there is one. -/
def Db.statusOf (db : Db) (id : ObjectId) : Option Status :=
  (db.findGoalById id).map (fun g => g.status)

/-- The outcome of a request that was turned away by an approver guard: the
database is the one before, and the answer is 403 or an exception. -/
def Refused (db : Db) (out : Response × Db) : Prop :=
  out.2 = db ∧ (out.1 = .status 403 "権限なし" ∨ out.1 = .raised)

instance (db : Db) (out : Response × Db) : Decidable (Refused db out) := by
  unfold Refused
  infer_instance

/-- What one `save` of a goal route does to the collection: nothing, or the
document found under `id` is replaced by one with the same `_id`, a status
that is not the unused `approved2` (unless it already was), and a history
that extends the stored one. -/
def Writes (db : Db) (id : ObjectId) (db' : Db) : Prop :=
  db' = db ∨
    ∃ g g', db.findGoalById id = some g ∧ g'._id = g._id ∧
      (g.status ≠ .approved2 → g'.status ≠ .approved2) ∧
      (∃ t, g'.history = g.history ++ t) ∧ db.save g' = some db'

/-- The in-memory document of the edit route after the form values have been
assigned (lines 6899-6909), with `approver` the `currentApprover` it ends up
with. -/
def edited (goal : Goal) (body : Body) (approver : Option ObjectId) : Goal :=
  { goal with
    title := body.title
    description := body.description
    deadline := body.deadline
    goalLevel := body.goalLevel
    actionPlan := body.actionPlan
    currentApprover := approver }

/-- The call `ensureOwnerName(goal)` as `server.js` resolves it: the file
declares no `ensureOwnerName` and imports none, so evaluating the call raises
a ReferenceError. -/
def undeclaredEnsureOwnerName : Goal → Option Goal :=
  fun _ => none

/-- The routes that call `ensureOwnerName` in front of `goal.save()`. -/
def transitionRoutes : List Route :=
  [.submit1, .approve1, .reject1, .evaluate, .approve2, .reject2, .edit]

/-- The edges of the approval state machine as the specification lists
them. -/
def definedEdge : Status → Status → Bool
  | .draft, .pending1 => true
  | .pending1, .approved1 => true
  | .pending1, .rejected => true
  | .approved1, .pending2 => true
  | .pending2, .completed => true
  | .pending2, .rejected => true
  | .rejected, .pending1 => true
  | .rejected, .pending2 => true
  | _, _ => false

/-- What holds of every goal that the routes of `server.js` store: it is a
draft, or it awaits the first approval and has a `currentApprover`; and its
`progress` and `goalLevel` are the ones it was created with. -/
def AsCreated (g : Goal) : Prop :=
  (g.status = .draft ∨ (g.status = .pending1 ∧ g.currentApprover ≠ none)) ∧
    g.progress = some 0 ∧ g.goalLevel ≠ none

/-! ## The recommendation rules (`computeAIRecommendations`, lines 783-829)

Counts and hours are integers (the caller rounds them); a summary or a field
that is absent is `none`, and a comparison with an absent number is false, as
in the source. -/

/-- One element of the array `recs`. -/
structure Recommendation where
  title : String
  description : String
  link : String
  confidence : Int
  reason : String
  deriving DecidableEq, Repr

/-- The field of `attendanceSummary` that the rules read. -/
structure AttendanceSummary where
  overtime : Option Int
  deriving DecidableEq, Repr

/-- The field of `goalSummary` that the rules read: a number, or `none` for
`null`/`undefined`. -/
structure GoalSummary where
  personal : Option Int
  deriving DecidableEq, Repr

/-- The fields of `leaveSummary` that the rules read. -/
structure LeaveSummary where
  upcoming : Option Int
  pending : Option Int
  deriving DecidableEq, Repr

/-- The field of `payrollSummary` that the rules read. -/
structure PayrollSummary where
  pending : Option Int
  deriving DecidableEq, Repr

/-- The argument object of `computeAIRecommendations`.  An element of
`monthlyAttendance` is the `type` of that day, `none` when the day or its
`type` is missing. -/
structure Summaries where
  attendanceSummary : Option AttendanceSummary
  goalSummary : Option GoalSummary
  leaveSummary : Option LeaveSummary
  payrollSummary : Option PayrollSummary
  monthlyAttendance : Option (List (Option String))
  deriving DecidableEq, Repr

/-- `x >= n` for a number that may be absent. -/
def geNum (x : Option Int) (n : Int) : Bool :=
  match x with
  | some v => decide (n ≤ v)
  | none => false

/-- `x > n` for a number that may be absent. -/
def gtNum (x : Option Int) (n : Int) : Bool :=
  match x with
  | some v => decide (n < v)
  | none => false

/-- `x < n` for a number that may be absent (`typeof x === 'number' && x < n`). -/
def ltNum (x : Option Int) (n : Int) : Bool :=
  match x with
  | some v => decide (v < n)
  | none => false

/-- Rule 1 (lines 787-792): leave, `upcoming >= 2`, else `pending > 0`. -/
def leaveRecs (i : Summaries) : List Recommendation :=
  match i.leaveSummary with
  | none => []
  | some l =>
    if geNum l.upcoming 2 then
      [{ title := "休暇残確認"
         description := "申請済・予定の休暇が複数あります。残日数を確認してください。"
         link := "/leave/my-requests", confidence := 88, reason := "予定休が複数" }]
    else if gtNum l.pending 0 then
      [{ title := "休暇承認待ち"
         description := "未承認の休暇申請が " ++ toString (l.pending.getD 0) ++ " 件あります。承認対応をお願いします。"
         link := "/leave/my-requests", confidence := 84, reason := "未承認申請あり" }]
    else []

/-- Rule 2 (lines 795-799): overtime, `>= 20`, else `>= 8`. -/
def overtimeRecs (i : Summaries) : List Recommendation :=
  match i.attendanceSummary with
  | none => []
  | some a =>
    if geNum a.overtime 20 then
      [{ title := "残業軽減の提案"
         description := "今月の残業が " ++ toString (a.overtime.getD 0) ++ " 時間です。タスク見直しや代替リソースを検討してください。"
         link := "/attendance-main", confidence := 92, reason := "残業高" }]
    else if geNum a.overtime 8 then
      [{ title := "残業注意"
         description := "今月の残業は " ++ toString (a.overtime.getD 0) ++ " 時間です。優先度の見直しを検討してください。"
         link := "/attendance-main", confidence := 76, reason := "残業中程度" }]
    else []

/-- Rule 3 (lines 802-804): personal goal progress below 50. -/
def goalLowRecs (i : Summaries) : List Recommendation :=
  match i.goalSummary with
  | none => []
  | some g =>
    if ltNum g.personal 50 then
      [{ title := "目標進捗が低い"
         description := "個人目標の達成率が " ++ toString (g.personal.getD 0) ++ "% と低めです。期日/タスクを再確認してください。"
         link := "/goals", confidence := 86, reason := "目標低進捗" }]
    else []

/-- Rule 4 (lines 807-809): unprocessed payroll. -/
def payrollRecs (i : Summaries) : List Recommendation :=
  match i.payrollSummary with
  | none => []
  | some p =>
    if gtNum p.pending 0 then
      [{ title := "給与処理の確認"
         description := "未処理の給与件数: " ++ toString (p.pending.getD 0) ++ "。締め処理や確認が必要です。"
         link := "/hr/payroll", confidence := 80, reason := "未処理給与あり" }]
    else []

/-- The count `unposted` (line 812): days without a `type`. -/
def unposted (i : Summaries) : Nat :=
  ((i.monthlyAttendance.getD []).filter
    (fun d => match d with
      | none => true
      | some t => t == "")).length

/-- Rule 5 (lines 812-815): more than three days without a `type`. -/
def unpostedRecs (i : Summaries) : List Recommendation :=
  if 3 < unposted i then
    [{ title := "打刻漏れの可能性"
       description := "今月 " ++ toString (unposted i) ++ " 日分で勤務状況が未設定です。打刻漏れの確認をしてください。"
       link := "/attendance-main", confidence := 78, reason := "未設定日多数" }]
  else []

/-- Rule 6 (lines 818-820): personal goal progress below 80. -/
def trainingRecs (i : Summaries) : List Recommendation :=
  match i.goalSummary with
  | none => []
  | some g =>
    if ltNum g.personal 80 then
      [{ title := "推奨トレーニング"
         description := "目標達成のための関連教育コンテンツを提案します。"
         link := "https://dxpro-edu.web.app/", confidence := 70, reason := "目標補助" }]
    else []

/-- Rule 6b (lines 823-825): no personal goal value. -/
def goalUnsetRecs (i : Summaries) : List Recommendation :=
  match i.goalSummary with
  | none => []
  | some g =>
    if g.personal.isNone then
      [{ title := "個人目標を設定"
         description := "今期の目標を作成して進捗の可視化を始めましょう。"
         link := "/goals", confidence := 72, reason := "未設定" }]
    else []

/-- The array `recs` before it is sorted (lines 784-825). -/
def recs (i : Summaries) : List Recommendation :=
  leaveRecs i ++ overtimeRecs i ++ goalLowRecs i ++ payrollRecs i ++ unpostedRecs i ++
    trainingRecs i ++ goalUnsetRecs i

/-- The order of the comparator `(a,b) => b.confidence - a.confidence`: `a`
may stand before `b`. -/
def byConfidence (a b : Recommendation) : Prop :=
  b.confidence ≤ a.confidence

instance : DecidableRel byConfidence :=
  fun a b => inferInstanceAs (Decidable (b.confidence ≤ a.confidence))

/-- `computeAIRecommendations` (lines 783-829): the fired rules, sorted by
confidence in descending order (a stable sort, as `Array.prototype.sort`),
cut to the first six. -/
def computeAIRecommendations (i : Summaries) : List Recommendation :=
  ((recs i).insertionSort byConfidence).take 6

/-! ## The pretest grader (`computePretestScore`, lines 833-893)

Answers are text, keyed by the question number (`q1` is question 1); an
absent or falsy answer is `none` or the empty string.  Scores are rational
numbers: the per-question values of the source are the quotients `m / n`
with `n` at most 4 and the halves, and their sums are multiples of 1/12, so
the argument of `Math.round` is never near a tie and the doubles of the
source round to the same integer as the exact values.  The built-in
`String.prototype.toLowerCase` is an argument `lower` of the grader
(`computePretestScoreWith`); `computePretestScore` is the grader at
`toLowerCase`, which lowers ASCII letters, as the built-in does on ASCII
text.  The parameter `lang` of the source is never read. -/

/-- The table `interviewKeywords` (lines 840-845), `[]` outside q1-q20. -/
def interviewKeywords : Nat → List String
  | 1 => ["gc", "ガベージ", "メモリ", "heap"]
  | 2 => ["ガベージ", "自動", "回収"]
  | 3 => ["checked", "unchecked", "チェック"]
  | 4 => ["event loop", "イベント"]
  | 5 => ["this", "コンテキスト", "参照"]
  | 6 => ["設定", "起動", "自動設定"]
  | 7 => ["di", "依存性注入"]
  | 8 => ["rest", "http", "リソース"]
  | 9 => ["get", "post", "http"]
  | 10 => ["隔離", "isolation"]
  | 11 => ["インデックス", "検索", "高速"]
  | 12 => ["xss", "エスケープ", "サニタイズ"]
  | 13 => ["async", "非同期"]
  | 14 => ["utf-8", "エンコード"]
  | 15 => ["マイクロサービス", "分割"]
  | 16 => ["immutable", "不変"]
  | 17 => ["バージョン", "依存"]
  | 18 => ["テスト", "ユニット"]
  | 19 => ["ログ", "出力", "context"]
  | 20 => ["メモリ", "リーク", "増加"]
  | _ => []

/-- A piece of one alternative of a regular expression of the source: a
literal text, `\s+` or `\s*`. -/
inductive Piece
  | lit (s : String)
  | spaces1
  | spaces0
  deriving DecidableEq, Repr

/-- A regular expression of the table `codeKeywords`: alternatives, each a
sequence of pieces, and the flag `i`. -/
structure RegExp where
  alternatives : List (List Piece)
  ignoreCase : Bool
  deriving DecidableEq, Repr

/-- The table `codeKeywords` (lines 848-853), `[]` outside q21-q40. -/
def codeKeywords : Nat → List RegExp
  | 21 => [⟨[[.lit "new", .spaces1, .lit "ArrayList"], [.lit "ArrayList"]], false⟩]
  | 22 => [⟨[[.lit "new", .spaces1, .lit "Set"], [.lit "filter"], [.lit "unique"], [.lit "new Set"]], false⟩]
  | 23 => [⟨[[.lit "@RestController"], [.lit "@GetMapping"], [.lit "@RequestMapping"]], false⟩]
  | 24 => [⟨[[.lit "prepareStatement"], [.lit "PreparedStatement"], [.lit "SELECT"]], false⟩]
  | 25 => [⟨[[.lit "fetch("], [.lit "axios"], [.lit "XMLHttpRequest"]], false⟩]
  | 26 => [⟨[[.lit "sort("], [.lit "Collections.sort"]], false⟩]
  | 27 => [⟨[[.lit "sanitize"], [.lit "escape"], [.lit "replace"]], false⟩]
  | 28 => [⟨[[.lit "try", .spaces0, .lit "\x7b"], [.lit "catch", .spaces0, .lit "("],
            [.lit "Files.readAllLines"]], false⟩]
  | 29 => [⟨[[.lit "JSON.parse"], [.lit ".json("], [.lit "JSON.stringify"]], false⟩]
  | 30 => [⟨[[.lit "SELECT"], [.lit "executeQuery"], [.lit "ResultSet"]], false⟩]
  | 31 => [⟨[[.lit "Math.max"], [.lit "for", .spaces0, .lit "("], [.lit "reduce("]], false⟩]
  | 32 => [⟨[[.lit "StringBuilder"], [.lit "new", .spaces1, .lit "StringBuilder"], [.lit "reverse"]], false⟩]
  | 33 => [⟨[[.lit "JWT"], [.lit "token"], [.lit "verify"]], false⟩]
  | 34 => [⟨[[.lit "function", .spaces0, .lit "("], [.lit "=>"], [.lit "recurs"]], true⟩]
  | 35 => [⟨[[.lit "synchronized"], [.lit "AtomicInteger"], [.lit "volatile"]], false⟩]
  | 36 => [⟨[[.lit "batch"], [.lit "executeBatch"], [.lit "INSERT"]], false⟩]
  | 37 => [⟨[[.lit "slice("], [.lit "limit("], [.lit "page"]], false⟩]
  | 38 => [⟨[[.lit "logger"], [.lit "log."], [.lit "Log4j"], [.lit "slf4j"]], false⟩]
  | 39 => [⟨[[.lit "async"], [.lit "await"], [.lit "Promise"]], false⟩]
  | 40 => [⟨[[.lit "function"], [.lit "def"], [.lit "public", .spaces1, .lit "static"]], false⟩]
  | _ => []

/-- The characters matched by `\s`, by code point. -/
def isSpace (c : Char) : Bool :=
  let n := c.toNat
  n == 9 || n == 10 || n == 11 || n == 12 || n == 13 || n == 32 || n == 160 || n == 5760 ||
    (8192 ≤ n && n ≤ 8202) || n == 8232 || n == 8233 || n == 8239 || n == 8287 || n == 12288 ||
    n == 65279

/-- Two characters match, up to the case of ASCII letters under the flag
`i`. -/
def sameChar (ignoreCase : Bool) (a b : Char) : Bool :=
  if ignoreCase then a.toLower == b.toLower else a == b

/-- The text starts with the literal. -/
def startsWith (ignoreCase : Bool) : List Char → List Char → Bool
  | [], _ => true
  | _ :: _, [] => false
  | p :: ps, c :: cs => sameChar ignoreCase p c && startsWith ignoreCase ps cs

/-- The text after none, one, two, ... of its leading `\s` characters. -/
def afterSpaces : List Char → List (List Char)
  | [] => [[]]
  | c :: cs => (c :: cs) :: (if isSpace c then afterSpaces cs else [])

/-- The sequence of pieces matches at the start of the text. -/
def matchHere (ignoreCase : Bool) : List Piece → List Char → Bool
  | [], _ => true
  | .lit s :: rest, cs =>
    startsWith ignoreCase s.data cs && matchHere ignoreCase rest (cs.drop s.data.length)
  | .spaces0 :: rest, cs => (afterSpaces cs).any (fun t => matchHere ignoreCase rest t)
  | .spaces1 :: rest, cs => ((afterSpaces cs).drop 1).any (fun t => matchHere ignoreCase rest t)

/-- `re.test(txt)`: some alternative matches somewhere in the text. -/
def RegExp.test (re : RegExp) (txt : String) : Bool :=
  txt.data.tails.any (fun t => re.alternatives.any (fun alt => matchHere re.ignoreCase alt t))

/-- `txt.indexOf(w) !== -1`. -/
def includes (txt w : String) : Bool :=
  txt.data.tails.any (fun t => startsWith false w.data t)

/-- `toLowerCase()` on ASCII letters; the built-in of the source also lowers
letters outside ASCII. -/
def toLowerCase (s : String) : String :=
  ⟨s.data.map Char.toLower⟩

/-- The text of question `k` for the interview loop (line 858), with `lower`
the built-in `toLowerCase`. -/
def interviewTextWith (lower : String → String) (answers : Nat → Option String) (k : Nat) : String :=
  lower ((answers k).getD "")

/-- The counter `matched` of the interview loop (lines 861-864). -/
def interviewMatchedWith (lower : String → String) (answers : Nat → Option String) (k : Nat) : Nat :=
  ((interviewKeywords k).filter (fun w => includes (interviewTextWith lower answers k) w)).length

/-- The value `per[k]` set by the interview loop (lines 856-868). -/
def interviewScoreWith (lower : String → String) (answers : Nat → Option String) (k : Nat) : ℚ :=
  if interviewTextWith lower answers k = "" then 0
  else if (interviewKeywords k).length ≠ 0 then
    min 1 ((interviewMatchedWith lower answers k : ℚ) / (max 1 (interviewKeywords k).length : ℕ))
  else if interviewTextWith lower answers k ≠ "" then 1 / 2
  else 0

/-- The text of question `k` for the interview loop, lower-cased by
`toLowerCase`. -/
def interviewText (answers : Nat → Option String) (k : Nat) : String :=
  interviewTextWith toLowerCase answers k

/-- The counter `matched` of the interview loop, for `toLowerCase`. -/
def interviewMatched (answers : Nat → Option String) (k : Nat) : Nat :=
  interviewMatchedWith toLowerCase answers k

/-- The value `per[k]` set by the interview loop, for `toLowerCase`. -/
def interviewScore (answers : Nat → Option String) (k : Nat) : ℚ :=
  interviewScoreWith toLowerCase answers k

/-- The counter `matched` of the code loop (lines 876-880). -/
def codeMatched (answers : Nat → Option String) (k : Nat) : Nat :=
  ((codeKeywords k).filter (fun re => re.test ((answers k).getD ""))).length

/-- The value `per[k]` set by the code loop (lines 871-884). -/
def codeScore (answers : Nat → Option String) (k : Nat) : ℚ :=
  if (answers k).getD "" = "" then 0
  else if 2 ≤ codeMatched answers k then 1
  else if codeMatched answers k = 1 then 1 / 2
  else 0

/-- `Math.round`: the nearest integer, a tie going up. -/
def mathRound (x : ℚ) : ℤ :=
  Rat.floor (x + 1 / 2)

/-- The object returned by `computePretestScore`. -/
structure PretestResult where
  score : ℚ
  total : Nat
  perQuestionScores : List (Nat × ℚ)

/-- The entries of `per` for q1-q20. -/
def interviewScoresWith (lower : String → String) (answers : Nat → Option String) : List (Nat × ℚ) :=
  (List.range' 1 20).map (fun k => (k, interviewScoreWith lower answers k))

/-- The entries of `per` for q21-q40. -/
def codeScores (answers : Nat → Option String) : List (Nat × ℚ) :=
  (List.range' 21 20).map (fun k => (k, codeScore answers k))

/-- The accumulator `score` after both loops. -/
def rawScoreWith (lower : String → String) (answers : Nat → Option String) : ℚ :=
  ((interviewScoresWith lower answers).map (fun e => e.2)).sum +
    ((codeScores answers).map (fun e => e.2)).sum

/-- `computePretestScore` (lines 833-893) on an answers object, with `lower`
the built-in `toLowerCase`; the `catch` branch is not reached for text
answers. -/
def computePretestScoreWith (lower : String → String) (answers : Nat → Option String) : PretestResult :=
  { score := (mathRound (min 40 (rawScoreWith lower answers) * 100) : ℚ) / 100
    total := 40
    perQuestionScores := interviewScoresWith lower answers ++ codeScores answers }

/-- The entries of `per` for q1-q20, for `toLowerCase`. -/
def interviewScores (answers : Nat → Option String) : List (Nat × ℚ) :=
  interviewScoresWith toLowerCase answers

/-- The accumulator `score` after both loops, for `toLowerCase`. -/
def rawScore (answers : Nat → Option String) : ℚ :=
  rawScoreWith toLowerCase answers

/-- `computePretestScore` with `toLowerCase` for the built-in. -/
def computePretestScore (answers : Nat → Option String) : PretestResult :=
  computePretestScoreWith toLowerCase answers

/-- The number of keywords of question `k` that occur as a substring of the
text, in the words of the specification: a keyword occurs when its
characters are a contiguous part of the characters of the text. -/
def keywordsOccurring (k : Nat) (txt : String) : Nat :=
  ((interviewKeywords k).filter (fun w => decide (w.data <:+: txt.data))).length

/-- The answers of scenario 6: q1 and q21 only. -/
def scenario6 : Nat → Option String :=
  fun k => if k = 1 then some "heap garbage collector"
    else if k = 21 then some "new ArrayList()" else none

/-- An answer to q2 that names one of its three keywords. -/
def oneKeywordQ2 : Nat → Option String :=
  fun k => if k = 2 then some "自動" else none

/-- An answer to q7 that names the keyword `di` in upper case. -/
def upperCaseQ7 : Nat → Option String :=
  fun k => if k = 7 then some "DI container" else none

/-! ## Concrete data -/

/-- Employee E1 of the examples (employee id 1, user id 101). -/
def e1 : Employee := { _id := 1, userId := 101, name := "E1" }

/-- Employee A1 of the examples (employee id 2, user id 102). -/
def a1 : Employee := { _id := 2, userId := 102, name := "A1" }

/-- A database with the two employees and no goal. -/
def db0 : Db := { employees := [e1, a1], goals := [] }

/-- An empty form. -/
def emptyBody : Body :=
  { title := "", description := none, goalLevel := none, deadline := none, actionPlan := none
    approverId := none, resubmit := false, progress := none, grade := none, comment := none }

/-- A request of the user with the given id, not an admin, on goal 7. -/
def requestOf (userId : ObjectId) (body : Body) : Request :=
  { session := { userId := some userId, isAdmin := false, userIsAdmin := false }
    id := 7, body := body, json := false, now := 0, newId := 7 }

/-- E1 creates goal 7 with approver A1. -/
def dbDraft : Db :=
  (add db0 (requestOf 101 { emptyBody with title := "t", approverId := some 2 })).2

/-- E1 submits goal 7 for the first approval. -/
def dbPending1 : Db :=
  (submit1 keepOwnerName dbDraft (requestOf 101 emptyBody)).2

/-- A1 approves goal 7. -/
def dbApproved1 : Db :=
  (approve1 keepOwnerName dbPending1 (requestOf 102 emptyBody)).2

/-- E1 evaluates goal 7 and names A1 as second approver. -/
def dbPending2 : Db :=
  (evaluate keepOwnerName dbApproved1
    (requestOf 101 { emptyBody with progress := some 80, grade := some "B", approverId := some 2 })).2

/-- A1 gives the second approval: goal 7 is completed. -/
def dbCompleted : Db :=
  (approve2 keepOwnerName dbPending2 (requestOf 102 emptyBody)).2

/-- E1 creates goal 7 leaving the approver select on its empty first option. -/
def dbDraftNoApprover : Db :=
  (add db0 (requestOf 101 { emptyBody with title := "t" })).2

/-- A request of an admin session of the user with the given id, on goal 7. -/
def adminRequestOf (userId : ObjectId) (body : Body) : Request :=
  { session := { userId := some userId, isAdmin := true, userIsAdmin := false }
    id := 7, body := body, json := false, now := 0, newId := 7 }

/-- The admin session of A1 submits E1's draft: the first `submit1` entry of
goal 7 is recorded by A1. -/
def dbSubmittedByAdmin : Db :=
  (submit1 keepOwnerName dbDraft (adminRequestOf 102 emptyBody)).2

/-- A1 rejects the goal that the admin session submitted. -/
def dbRejectedAfterAdminSubmit : Db :=
  (reject1 keepOwnerName dbSubmittedByAdmin
    (requestOf 102 { emptyBody with comment := some "insufficient detail" })).2

/-- Employee A2 of the examples (employee id 3, user id 103). -/
def a2 : Employee := { _id := 3, userId := 103, name := "A2" }

/-- A history entry without comment, recorded at time 0. -/
def entry (action : Action) (by_ : ObjectId) : HistoryEntry :=
  { action := action, by_ := some by_, date := 0, comment := none }

/-- Employees E1, A1, A2 and goal 7 as E1 created it with approver A1, stored
with the given status and with the given entries after its `create`
entry. -/
def dbStored (status : Status) (entries : List HistoryEntry) : Db :=
  { employees := [e1, a1, a2]
    goals := dbDraft.goals.map (fun g => { g with status := status, history := g.history ++ entries }) }

/-- An administrator (user 100) runs admin-fix on the draft goal 7, which
then awaits the first approval by A1. -/
def dbAwaiting : Db :=
  (adminFix dbDraft (adminRequestOf 100 emptyBody)).2

/-- Goal 7 after the first approval by A1. -/
def dbApprovedOnce : Db :=
  dbStored .approved1 [entry .submit1 1, entry .approve1 2]

/-- Goal 7 awaiting the second approval, with A1 as second approver. -/
def dbSecondStage : Db :=
  dbStored .pending2 [entry .submit1 1, entry .approve1 2, entry .submit2 1]

/-- Goal 7 rejected by A1 at the second stage. -/
def dbRejectedSecond : Db :=
  dbStored .rejected [entry .submit1 1, entry .approve1 2, entry .submit2 1, entry .reject2 2]

/-- Goal 7 completed. -/
def dbDone : Db :=
  dbStored .completed [entry .submit1 1, entry .approve1 2, entry .submit2 1, entry .approve2 2]

/-- Goal 7, created by E1, whose first `submit1` entry was recorded by A1 and
which A1 has rejected. -/
def dbSubmittedByOther : Db :=
  dbStored .rejected [entry .submit1 2, entry .reject1 2]

/-- Summaries with nothing present. -/
def noSummaries : Summaries :=
  { attendanceSummary := none, goalSummary := none, leaveSummary := none
    payrollSummary := none, monthlyAttendance := none }

/-- Two upcoming leaves and one pending leave request. -/
def leaveBoth : Summaries :=
  { noSummaries with leaveSummary := some { upcoming := some 2, pending := some 1 } }

/-- One pending leave request, no upcoming leave, 25 hours of overtime. -/
def leavePendingOvertime : Summaries :=
  { noSummaries with
    leaveSummary := some { upcoming := some 0, pending := some 1 }
    attendanceSummary := some { overtime := some 25 } }

/-! ## Lemmas on the store -/

theorem save_eq_some {db db' : Db} {g : Goal} (h : db.save g = some db') :
    validate g = true ∧
      db' = { db with goals := db.goals.map (fun x => if x._id == g._id then g else x) } := by
  unfold Db.save at h
  split at h
  · rename_i hv
    exact ⟨hv, by simpa using h.symm⟩
  · simp at h

theorem find_map_replace (l : List Goal) (g : Goal) (id : ObjectId) :
    (l.map (fun x => if x._id == g._id then g else x)).find? (fun x => x._id == id)
      = (l.find? (fun x => x._id == id)).map (fun x => if x._id == g._id then g else x) := by
  induction l with
  | nil => rfl
  | cons x xs ih =>
    simp only [List.map_cons, List.find?_cons]
    by_cases hx : x._id = g._id
    · by_cases hid : g._id = id
      · have h1 : x._id = id := hx.trans hid
        simp [hx, hid]
      · have h1 : ¬ x._id = id := fun h => hid (hx.symm.trans h)
        have h2 : (g._id == id) = false := by simpa using hid
        simp only [beq_iff_eq, hx, if_true, h2] at ih ⊢
        exact ih
    · by_cases hid : x._id = id
      · have h2 : (x._id == id) = true := by simpa using hid
        simp [hx, h2]
      · have h2 : (x._id == id) = false := by simpa using hid
        simp only [beq_iff_eq, hx, if_false, h2] at ih ⊢
        exact ih

theorem findGoalById_id {db : Db} {id : ObjectId} {g : Goal} (h : db.findGoalById id = some g) :
    g._id = id := by
  have := List.find?_some h
  simpa using this

theorem findGoalById_mem {db : Db} {id : ObjectId} {g : Goal} (h : db.findGoalById id = some g) :
    g ∈ db.goals :=
  List.mem_of_find?_eq_some h

/-- After a save of a document found under `id0`, a lookup under `id` gives
the saved document for `id = id0` and the former document otherwise. -/
theorem findGoalById_save {db db' : Db} {g : Goal} (h : db.save g = some db') (id : ObjectId) :
    db'.findGoalById id = (db.findGoalById id).map (fun x => if x._id == g._id then g else x) := by
  obtain ⟨_, rfl⟩ := save_eq_some h
  exact find_map_replace db.goals g id

theorem finish_cases (ensureOwnerName : Goal → Option Goal) (db : Db) (goal : Goal) (resp : Response) :
    finish ensureOwnerName db goal resp = (.raised, db) ∨
      ∃ g' db', ensureOwnerName goal = some g' ∧ db.save g' = some db' ∧
        finish ensureOwnerName db goal resp = (resp, db') := by
  cases hh : ensureOwnerName goal with
  | none => exact Or.inl (by simp only [finish, hh])
  | some g' =>
    cases hs : db.save g' with
    | none => exact Or.inl (by simp only [finish, hh, hs])
    | some db' => exact Or.inr ⟨g', db', rfl, hs, by simp only [finish, hh, hs]⟩

/-! ## The success path of each handler -/

theorem submit1_pass {ensureOwnerName : Goal → Option Goal} {db : Db} {req : Request} {u : ObjectId}
    {e : Employee} {g : Goal} (hu : req.session.userId = some u)
    (he : db.findEmployeeByUserId u = some e) (hg : db.findGoalById req.id = some g)
    (hguard : req.session.admin = true ∨ isCreatorOfGoal (some g) (some e) = true) :
    submit1 ensureOwnerName db req = finish ensureOwnerName db
      { g with
        status := .pending1
        history := g.history ++
          [{ action := .submit1, by_ := some e._id, date := req.now, comment := none }] }
      (.redirect "/goals") := by
  rcases hguard with h | h <;> simp [submit1, requireLogin, hu, he, hg, h]

theorem approve1_pass {ensureOwnerName : Goal → Option Goal} {db : Db} {req : Request} {u : ObjectId}
    {e : Employee} {g : Goal} (hu : req.session.userId = some u)
    (he : db.findEmployeeByUserId u = some e) (hg : db.findGoalById req.id = some g)
    (hguard : req.session.admin = true ∨ g.currentApprover = some e._id) :
    approve1 ensureOwnerName db req = finish ensureOwnerName db
      { g with
        status := .approved1
        history := g.history ++
          [{ action := .approve1, by_ := some e._id, date := req.now, comment := none }] }
      (.redirect "/goals") := by
  rcases hguard with h | h
  · simp [approve1, requireLogin, hu, he, hg, notApprover, h]
  · cases hadm : req.session.admin <;>
      simp [approve1, requireLogin, hu, he, hg, notApprover, h, hadm]

theorem reject1_pass {ensureOwnerName : Goal → Option Goal} {db : Db} {req : Request} {u : ObjectId}
    {e : Employee} {g : Goal} (hu : req.session.userId = some u)
    (he : db.findEmployeeByUserId u = some e) (hg : db.findGoalById req.id = some g)
    (hguard : req.session.admin = true ∨ g.currentApprover = some e._id) :
    reject1 ensureOwnerName db req = finish ensureOwnerName db
      { g with
        status := .rejected
        history := g.history ++
          [{ action := .reject1, by_ := some e._id, date := req.now, comment := req.body.comment }] }
      (.redirect "/goals/approval") := by
  rcases hguard with h | h
  · simp [reject1, requireLogin, hu, he, hg, notApprover, h]
  · cases hadm : req.session.admin <;>
      simp [reject1, requireLogin, hu, he, hg, notApprover, h, hadm]

theorem reject2_pass {ensureOwnerName : Goal → Option Goal} {db : Db} {req : Request} {u : ObjectId}
    {e : Employee} {g : Goal} (hu : req.session.userId = some u)
    (he : db.findEmployeeByUserId u = some e) (hg : db.findGoalById req.id = some g)
    (hguard : req.session.admin = true ∨ g.currentApprover = some e._id) :
    reject2 ensureOwnerName db req = finish ensureOwnerName db
      { g with
        status := .rejected
        history := g.history ++
          [{ action := .reject2, by_ := some e._id, date := req.now, comment := req.body.comment }] }
      (.redirect "/goals/approval") := by
  rcases hguard with h | h
  · simp [reject2, requireLogin, hu, he, hg, notApprover, h]
  · cases hadm : req.session.admin <;>
      simp [reject2, requireLogin, hu, he, hg, notApprover, h, hadm]

theorem approve2_pass {ensureOwnerName : Goal → Option Goal} {db : Db} {req : Request} {u : ObjectId}
    {e : Employee} {g : Goal} (hu : req.session.userId = some u)
    (he : db.findEmployeeByUserId u = some e) (hg : db.findGoalById req.id = some g)
    (hguard : req.session.admin = true ∨ g.currentApprover = some e._id) :
    approve2 ensureOwnerName db req = finish ensureOwnerName db
      { g with
        status := .completed
        history := g.history ++
          [{ action := .approve2, by_ := some e._id, date := req.now, comment := none }] }
      (.redirect "/goals/approval") := by
  rcases hguard with h | h
  · simp [approve2, requireLogin, hu, he, hg, notApprover, h]
  · cases hadm : req.session.admin <;>
      simp [approve2, requireLogin, hu, he, hg, notApprover, h, hadm]

theorem evaluate_pass {ensureOwnerName : Goal → Option Goal} {db : Db} {req : Request} {u : ObjectId}
    {e a : Employee} {g : Goal} (hu : req.session.userId = some u)
    (he : db.findEmployeeByUserId u = some e) (hg : db.findGoalById req.id = some g)
    (hs : g.status = .approved1)
    (hguard : req.session.admin = true ∨ g.createdBy = some e._id)
    (ha : db.findEmployeeById req.body.approverId = some a) :
    evaluate ensureOwnerName db req = finish ensureOwnerName db
      { g with
        progress := req.body.progress
        grade := req.body.grade
        status := .pending2
        currentApprover := some a._id
        history := g.history ++
          [{ action := .submit2, by_ := some e._id, date := req.now, comment := none }] }
      (.redirect "/goals") := by
  rcases hguard with h | h
  · simp [evaluate, requireLogin, hu, he, hg, hs, h, ha]
  · simp [evaluate, requireLogin, hu, he, hg, hs, h, ha]

/-! ## What a request may write -/

theorem writes_finish {ensureOwnerName : Goal → Option Goal} (hh : TouchesOwnerNameOnly ensureOwnerName)
    {db : Db} {id : ObjectId} {g goal : Goal} (hg : db.findGoalById id = some g)
    (hid : goal._id = g._id) (hs : g.status ≠ .approved2 → goal.status ≠ .approved2)
    (ht : ∃ t, goal.history = g.history ++ t) (resp : Response) :
    Writes db id (finish ensureOwnerName db goal resp).2 := by
  rcases finish_cases ensureOwnerName db goal resp with h | ⟨g', db', hg', hsave, h⟩
  · exact Or.inl (by rw [h])
  · have hfr := hh goal g' hg'
    refine Or.inr ⟨g, g', hg, ?_, ?_, ?_, by rw [h]; exact hsave⟩
    · rw [hfr]; exact hid
    · rw [hfr]; exact hs
    · rw [hfr]; exact ht

theorem writes_submit1 {ensureOwnerName : Goal → Option Goal} (hh : TouchesOwnerNameOnly ensureOwnerName)
    (db : Db) (req : Request) : Writes db req.id (submit1 ensureOwnerName db req).2 := by
  unfold submit1 requireLogin
  dsimp only
  repeat' split
  all_goals first
    | exact Or.inl rfl
    | (refine writes_finish hh (by assumption) ?_ ?_ ?_ _
       · rfl
       · exact fun _ => by simp
       · exact ⟨_, rfl⟩)

theorem writes_approve1 {ensureOwnerName : Goal → Option Goal} (hh : TouchesOwnerNameOnly ensureOwnerName)
    (db : Db) (req : Request) : Writes db req.id (approve1 ensureOwnerName db req).2 := by
  unfold approve1 requireLogin
  dsimp only
  repeat' split
  all_goals first
    | exact Or.inl rfl
    | (refine writes_finish hh (by assumption) ?_ ?_ ?_ _
       · rfl
       · exact fun _ => by simp
       · exact ⟨_, rfl⟩)

theorem writes_reject1 {ensureOwnerName : Goal → Option Goal} (hh : TouchesOwnerNameOnly ensureOwnerName)
    (db : Db) (req : Request) : Writes db req.id (reject1 ensureOwnerName db req).2 := by
  unfold reject1 requireLogin
  dsimp only
  repeat' split
  all_goals first
    | exact Or.inl rfl
    | (refine writes_finish hh (by assumption) ?_ ?_ ?_ _
       · rfl
       · exact fun _ => by simp
       · exact ⟨_, rfl⟩)

theorem writes_evaluate {ensureOwnerName : Goal → Option Goal} (hh : TouchesOwnerNameOnly ensureOwnerName)
    (db : Db) (req : Request) : Writes db req.id (evaluate ensureOwnerName db req).2 := by
  unfold evaluate requireLogin
  dsimp only
  repeat' split
  all_goals first
    | exact Or.inl rfl
    | (refine writes_finish hh (by assumption) ?_ ?_ ?_ _
       · rfl
       · exact fun _ => by simp
       · exact ⟨_, rfl⟩)

theorem writes_approve2 {ensureOwnerName : Goal → Option Goal} (hh : TouchesOwnerNameOnly ensureOwnerName)
    (db : Db) (req : Request) : Writes db req.id (approve2 ensureOwnerName db req).2 := by
  unfold approve2 requireLogin
  dsimp only
  repeat' split
  all_goals first
    | exact Or.inl rfl
    | (refine writes_finish hh (by assumption) ?_ ?_ ?_ _
       · rfl
       · exact fun _ => by simp
       · exact ⟨_, rfl⟩)

theorem writes_reject2 {ensureOwnerName : Goal → Option Goal} (hh : TouchesOwnerNameOnly ensureOwnerName)
    (db : Db) (req : Request) : Writes db req.id (reject2 ensureOwnerName db req).2 := by
  unfold reject2 requireLogin
  dsimp only
  repeat' split
  all_goals first
    | exact Or.inl rfl
    | (refine writes_finish hh (by assumption) ?_ ?_ ?_ _
       · rfl
       · exact fun _ => by simp
       · exact ⟨_, rfl⟩)

theorem writes_adminFix (db : Db) (req : Request) : Writes db req.id (adminFix db req).2 := by
  unfold adminFix requireLogin isAdmin
  dsimp only
  repeat' split
  all_goals first
    | exact Or.inl rfl
    | (refine Or.inr ⟨_, _, by assumption, ?_, ?_, ?_, by assumption⟩
       · split <;> rfl
       · split
         · exact fun _ => by simp
         · exact fun h => h
       · split
         · exact ⟨_, rfl⟩
         · exact ⟨[], (List.append_nil _).symm⟩)

theorem writes_refl (db : Db) (id : ObjectId) : Writes db id db :=
  Or.inl rfl

/-- The lookup of the saved document after a write of the route's own goal. -/
theorem findGoalById_save_self {db db' : Db} {id : ObjectId} {g g' : Goal}
    (hg : db.findGoalById id = some g) (hid : g'._id = g._id) (hs : db.save g' = some db') :
    db'.findGoalById id = some g' := by
  rw [findGoalById_save hs id, hg]
  simp [hid]

theorem writes_editSave {ensureOwnerName : Goal → Option Goal} (hh : TouchesOwnerNameOnly ensureOwnerName)
    {db : Db} {req : Request} {g : Goal} (hg : db.findGoalById req.id = some g)
    (employee : Employee) (goal : Goal) (hid : goal._id = g._id)
    (hs : g.status ≠ .approved2 → goal.status ≠ .approved2)
    (ht : goal.history = g.history) :
    ∃ db1, Writes db req.id db1 ∧ Writes db1 req.id (editSave ensureOwnerName db req employee goal).2 := by
  cases hhe : ensureOwnerName goal with
  | none =>
    have h : editSave ensureOwnerName db req employee goal = (.raised, db) := by
      simp only [editSave, hhe]
    exact ⟨db, writes_refl _ _, by rw [h]; exact writes_refl _ _⟩
  | some g1 =>
    have hfr := hh goal g1 hhe
    have hid1 : g1._id = g._id := by rw [hfr]; exact hid
    cases hsv : db.save g1 with
    | none =>
      have h : editSave ensureOwnerName db req employee goal = (.raised, db) := by
        simp only [editSave, hhe, hsv]
      exact ⟨db, writes_refl _ _, by rw [h]; exact writes_refl _ _⟩
    | some db1 =>
      have hw1 : Writes db req.id db1 := by
        refine Or.inr ⟨g, g1, hg, hid1, ?_, ⟨[], ?_⟩, hsv⟩
        · rw [hfr]; exact hs
        · rw [hfr]; simpa using ht
      refine ⟨db1, hw1, ?_⟩
      by_cases hr : req.body.resubmit = true
      · have h : editSave ensureOwnerName db req employee goal
            = finish ensureOwnerName db1 (resubmitted g1 employee req.now) (.redirect "/goals") := by
          simp only [editSave, hhe, hsv, hr, if_true]
        rw [h]
        have hg1 : db1.findGoalById req.id = some g1 := findGoalById_save_self hg hid1 hsv
        refine writes_finish hh hg1 ?_ ?_ ?_ _
        · unfold resubmitted; split <;> rfl
        · intro _; unfold resubmitted; split <;> simp
        · unfold resubmitted; split <;> exact ⟨_, rfl⟩
      · have h : editSave ensureOwnerName db req employee goal = (.redirect "/goals", db1) := by
          simp only [editSave, hhe, hsv, hr]
          rfl
        rw [h]
        exact writes_refl _ _

theorem writes_edit {ensureOwnerName : Goal → Option Goal} (hh : TouchesOwnerNameOnly ensureOwnerName)
    (db : Db) (req : Request) :
    ∃ db1, Writes db req.id db1 ∧ Writes db1 req.id (edit ensureOwnerName db req).2 := by
  unfold edit requireLogin
  dsimp only
  repeat' split
  all_goals first
    | exact ⟨db, writes_refl _ _, writes_refl _ _⟩
    | (refine writes_editSave hh (by assumption) _ _ ?_ ?_ ?_
       · rfl
       · exact fun h => h
       · rfl)

/-- A write keeps the unused status `approved2` out of the collection. -/
theorem Writes.status_inv {db db' : Db} {id : ObjectId} (hw : Writes db id db')
    (hinv : ∀ x ∈ db.goals, x.status ≠ .approved2) : ∀ x ∈ db'.goals, x.status ≠ .approved2 := by
  rcases hw with rfl | ⟨g, g', hg, _, hs, _, hsave⟩
  · exact hinv
  · obtain ⟨_, rfl⟩ := save_eq_some hsave
    intro x hx
    simp only [List.mem_map] at hx
    obtain ⟨y, hy, rfl⟩ := hx
    split
    · exact hs (hinv g (findGoalById_mem hg))
    · exact hinv y hy

/-- A write keeps every stored goal and only extends its history. -/
theorem Writes.history_extends {db db' : Db} {id : ObjectId} (hw : Writes db id db')
    {i : ObjectId} {x : Goal} (hx : db.findGoalById i = some x) :
    ∃ x' t, db'.findGoalById i = some x' ∧ x'.history = x.history ++ t := by
  rcases hw with rfl | ⟨g, g', hg, hid, _, ⟨t, ht⟩, hsave⟩
  · exact ⟨x, [], hx, (List.append_nil _).symm⟩
  · rw [findGoalById_save hsave i, hx]
    by_cases hxi : x._id = g'._id
    · have h1 : i = id := by
        rw [← findGoalById_id hx, ← findGoalById_id hg, hxi, hid]
      subst h1
      have h2 : x = g := Option.some.inj (hx.symm.trans hg)
      subst h2
      exact ⟨g', t, by simp [hxi], ht⟩
    · exact ⟨x, [], by simp [hxi], (List.append_nil _).symm⟩

/-! ## The status invariant -/

theorem insert_eq_some {db db' : Db} {g : Goal} (h : db.insert g = some db') :
    db' = { db with goals := db.goals ++ [g] } := by
  unfold Db.insert at h
  split at h
  · simpa using h.symm
  · simp at h

theorem add_status_inv (db : Db) (req : Request)
    (hinv : ∀ x ∈ db.goals, x.status ≠ .approved2) :
    ∀ x ∈ (add db req).2.goals, x.status ≠ .approved2 := by
  unfold add requireLogin
  dsimp only
  repeat' split
  all_goals first
    | exact hinv
    | (obtain rfl := insert_eq_some ‹db.insert _ = some _›
       intro x hx
       simp only [List.mem_append, List.mem_singleton] at hx
       rcases hx with hx | rfl
       · exact hinv x hx
       · simp [newGoal])

theorem delete_status_inv (db : Db) (req : Request)
    (hinv : ∀ x ∈ db.goals, x.status ≠ .approved2) :
    ∀ x ∈ (delete db req).2.goals, x.status ≠ .approved2 := by
  unfold delete requireLogin
  dsimp only
  repeat' split
  all_goals first
    | exact hinv
    | exact fun x hx => hinv x (List.mem_of_mem_eraseP hx)

theorem save_status_inv {db db' : Db} {g : Goal} (h : db.save g = some db')
    (hg : g.status ≠ .approved2) (hinv : ∀ x ∈ db.goals, x.status ≠ .approved2) :
    ∀ x ∈ db'.goals, x.status ≠ .approved2 := by
  obtain ⟨_, rfl⟩ := save_eq_some h
  intro x hx
  simp only [List.mem_map] at hx
  obtain ⟨y, hy, rfl⟩ := hx
  split
  · exact hg
  · exact hinv y hy

theorem adminFixDraftsLoop_status_inv (now : Nat) (drafts : List Goal) :
    ∀ (db : Db) (count : Nat), (∀ x ∈ db.goals, x.status ≠ .approved2) →
      ∀ x ∈ (adminFixDraftsLoop now drafts db count).2.goals, x.status ≠ .approved2 := by
  induction drafts with
  | nil => intro db count hinv; exact hinv
  | cons g rest ih =>
    intro db count hinv
    unfold adminFixDraftsLoop
    dsimp only
    split
    · exact ih db count hinv
    · split
      · exact hinv
      · rename_i hsave
        exact ih _ _ (save_status_inv hsave (by simp) hinv)

theorem adminFixDrafts_status_inv (db : Db) (req : Request)
    (hinv : ∀ x ∈ db.goals, x.status ≠ .approved2) :
    ∀ x ∈ (adminFixDrafts db req).2.goals, x.status ≠ .approved2 := by
  unfold adminFixDrafts requireLogin isAdmin
  dsimp only
  repeat' split
  all_goals first
    | exact hinv
    | exact adminFixDraftsLoop_status_inv _ _ _ _ hinv

/-- Every request keeps the unused status `approved2` out of the `Goal`
collection. -/
theorem handle_status_inv {ensureOwnerName : Goal → Option Goal} (hh : TouchesOwnerNameOnly ensureOwnerName)
    (route : Route) (db : Db) (req : Request)
    (hinv : ∀ x ∈ db.goals, x.status ≠ .approved2) :
    ∀ x ∈ (handle ensureOwnerName route db req).2.goals, x.status ≠ .approved2 := by
  cases route with
  | add => exact add_status_inv db req hinv
  | submit1 => exact (writes_submit1 hh db req).status_inv hinv
  | approve1 => exact (writes_approve1 hh db req).status_inv hinv
  | reject1 => exact (writes_reject1 hh db req).status_inv hinv
  | evaluate => exact (writes_evaluate hh db req).status_inv hinv
  | approve2 => exact (writes_approve2 hh db req).status_inv hinv
  | reject2 => exact (writes_reject2 hh db req).status_inv hinv
  | edit =>
    obtain ⟨db1, h1, h2⟩ := writes_edit hh db req
    exact h2.status_inv (h1.status_inv hinv)
  | delete => exact delete_status_inv db req hinv
  | adminFix => exact (writes_adminFix db req).status_inv hinv
  | adminFixDrafts => exact adminFixDrafts_status_inv db req hinv

theorem reachable_status_inv {ensureOwnerName : Goal → Option Goal} (hh : TouchesOwnerNameOnly ensureOwnerName)
    {db : Db} (hr : Reachable ensureOwnerName db) : ∀ x ∈ db.goals, x.status ≠ .approved2 := by
  induction hr with
  | init es => intro x hx; simp at hx
  | employees es _ ih => exact ih
  | step route req _ ih => exact handle_status_inv hh route _ req ih

theorem keepOwnerName_touches : TouchesOwnerNameOnly keepOwnerName := by
  intro g g' h
  simp only [keepOwnerName, Option.some.injEq] at h
  rw [← h]

theorem dbCompleted_reachable : Reachable keepOwnerName dbCompleted :=
  Reachable.step .approve2 (requestOf 102 emptyBody)
    (Reachable.step .evaluate
      (requestOf 101 { emptyBody with progress := some 80, grade := some "B", approverId := some 2 })
      (Reachable.step .approve1 (requestOf 102 emptyBody)
        (Reachable.step .submit1 (requestOf 101 emptyBody)
          (Reachable.step .add (requestOf 101 { emptyBody with title := "t", approverId := some 2 })
            (Reachable.init [e1, a1])))))

/-! ## Authorization failures -/

/-- C5: an actor who is not an admin and whose employee id is not the goal's
`currentApprover` cannot approve or reject at either stage: each of the four
routes answers 403 (or raises, when the goal has no `currentApprover` at
all) and leaves the database, hence every field of the stored goal, as it
was. -/
theorem approver_routes_refuse_others (ensureOwnerName : Goal → Option Goal) (db : Db) (req : Request)
    (u : ObjectId) (e : Employee) (g : Goal)
    (hu : req.session.userId = some u) (he : db.findEmployeeByUserId u = some e)
    (hg : db.findGoalById req.id = some g) (hadmin : req.session.admin = false)
    (hne : g.currentApprover ≠ some e._id) :
    Refused db (approve1 ensureOwnerName db req) ∧ Refused db (reject1 ensureOwnerName db req) ∧
      Refused db (approve2 ensureOwnerName db req) ∧ Refused db (reject2 ensureOwnerName db req) := by
  have key : notApprover false (some g) (some e) = some true ∨
      notApprover false (some g) (some e) = none := by
    cases hc : g.currentApprover with
    | none => simp [notApprover, hc]
    | some a =>
      left
      have : a ≠ e._id := fun h => hne (by rw [hc, h])
      simp [notApprover, hc, this]
  rcases key with key | key <;>
    simp [Refused, approve1, reject1, approve2, reject2, requireLogin, hu, he, hg, hadmin, key]

/-- C5 witness: E1 is not the approver of the pending goal 7. -/
theorem approver_routes_refuse_others_witness :
    Refused dbPending1 (approve1 keepOwnerName dbPending1 (requestOf 101 emptyBody)) ∧
      Refused dbPending1 (reject1 keepOwnerName dbPending1 (requestOf 101 emptyBody)) ∧
      Refused dbPending1 (approve2 keepOwnerName dbPending1 (requestOf 101 emptyBody)) ∧
      Refused dbPending1 (reject2 keepOwnerName dbPending1 (requestOf 101 emptyBody)) :=
  approver_routes_refuse_others keepOwnerName dbPending1 (requestOf 101 emptyBody) 101 e1
    ((dbPending1.findGoalById 7).get (by decide)) rfl (by decide) (by decide) (by decide) (by decide)

/-- C7: for a goal with `createdBy` set, an actor who is not an admin and
whose employee id differs from `createdBy` is refused with 403 by both
`evaluate` and `edit`, and nothing is written. -/
theorem evaluate_edit_refuse_non_creator (ensureOwnerName : Goal → Option Goal) (db : Db) (req : Request)
    (u c : ObjectId) (e : Employee) (g : Goal)
    (hu : req.session.userId = some u) (he : db.findEmployeeByUserId u = some e)
    (hg : db.findGoalById req.id = some g) (hadmin : req.session.admin = false)
    (hc : g.createdBy = some c) (hne : c ≠ e._id) :
    (evaluate ensureOwnerName db req = (.status 403 "評価入力不可", db) ∨
        evaluate ensureOwnerName db req = (.status 403 "権限なし", db)) ∧
      edit ensureOwnerName db req = (.status 403 "権限なし", db) := by
  constructor
  · by_cases hs : g.status = .approved1
    · right
      simp [evaluate, requireLogin, hu, he, hg, hadmin, hc, hne, hs]
    · left
      simp [evaluate, requireLogin, hu, hg, hs]
  · simp [edit, requireLogin, hu, he, hg, creatorId, hc, hne]

/-- C7 witness: A1 on the goal of E1 that awaits evaluation. -/
theorem evaluate_edit_refuse_non_creator_witness :
    (evaluate keepOwnerName dbApproved1 (requestOf 102 emptyBody)
          = (.status 403 "評価入力不可", dbApproved1) ∨
        evaluate keepOwnerName dbApproved1 (requestOf 102 emptyBody)
          = (.status 403 "権限なし", dbApproved1)) ∧
      edit keepOwnerName dbApproved1 (requestOf 102 emptyBody) = (.status 403 "権限なし", dbApproved1) :=
  evaluate_edit_refuse_non_creator keepOwnerName dbApproved1 (requestOf 102 emptyBody) 102 1 a1
    ((dbApproved1.findGoalById 7).get (by decide)) rfl (by decide) (by decide) (by decide)
    (by decide) (by decide)

/-! ## Invariants of the stored goals -/

/-- C2: every goal of a database reached from an empty collection by goal
requests (add, submit1, approve1, reject1, evaluate, approve2, reject2,
edit, delete, admin-fix, admin-fix-drafts, in any order and with any
arguments) has one of the six statuses draft, pending1, approved1, pending2,
completed, rejected; the seventh value of the schema, `approved2`, is never
stored. -/
theorem reachable_status_six_valued (ensureOwnerName : Goal → Option Goal)
    (hh : TouchesOwnerNameOnly ensureOwnerName) (db : Db) (hr : Reachable ensureOwnerName db) (g : Goal)
    (hg : g ∈ db.goals) :
    g.status = .draft ∨ g.status = .pending1 ∨ g.status = .approved1 ∨ g.status = .pending2 ∨
      g.status = .completed ∨ g.status = .rejected := by
  have h := reachable_status_inv hh hr g hg
  cases hs : g.status <;> simp_all

/-- C2 witness: the completed goal 7 of the database reached by add,
submit1, approve1, evaluate, approve2. -/
theorem reachable_status_six_valued_witness :
    ((dbCompleted.findGoalById 7).get (by decide)).status = .draft ∨
      ((dbCompleted.findGoalById 7).get (by decide)).status = .pending1 ∨
      ((dbCompleted.findGoalById 7).get (by decide)).status = .approved1 ∨
      ((dbCompleted.findGoalById 7).get (by decide)).status = .pending2 ∨
      ((dbCompleted.findGoalById 7).get (by decide)).status = .completed ∨
      ((dbCompleted.findGoalById 7).get (by decide)).status = .rejected :=
  reachable_status_six_valued keepOwnerName keepOwnerName_touches dbCompleted dbCompleted_reachable
    ((dbCompleted.findGoalById 7).get (by decide)) (by decide)

/-- C4: a request to any goal route other than delete and the batch
admin-fix-drafts (that is add, submit1, approve1, reject1, evaluate,
approve2, reject2, edit with or without resubmission, admin-fix) keeps every
stored goal, and the history of the goal afterwards is the history before
followed by the entries the request appended: nothing is removed, edited or
reordered. -/
theorem history_append_only (ensureOwnerName : Goal → Option Goal) (hh : TouchesOwnerNameOnly ensureOwnerName)
    (route : Route) (db : Db) (req : Request) (id : ObjectId) (g : Goal)
    (hroute : route ≠ .delete ∧ route ≠ .adminFixDrafts)
    (hg : db.findGoalById id = some g) :
    ∃ g' t, (handle ensureOwnerName route db req).2.findGoalById id = some g' ∧
      g'.history = g.history ++ t := by
  cases route with
  | add =>
    show ∃ g' t, (add db req).2.findGoalById id = some g' ∧ g'.history = g.history ++ t
    refine ⟨g, [], ?_, (List.append_nil _).symm⟩
    unfold add requireLogin
    dsimp only
    repeat' split
    all_goals first
      | exact hg
      | (obtain rfl := insert_eq_some ‹db.insert _ = some _›
         unfold Db.findGoalById at hg ⊢
         simp [List.find?_append, hg])
  | submit1 => exact (writes_submit1 hh db req).history_extends hg
  | approve1 => exact (writes_approve1 hh db req).history_extends hg
  | reject1 => exact (writes_reject1 hh db req).history_extends hg
  | evaluate => exact (writes_evaluate hh db req).history_extends hg
  | approve2 => exact (writes_approve2 hh db req).history_extends hg
  | reject2 => exact (writes_reject2 hh db req).history_extends hg
  | edit =>
    obtain ⟨db1, h1, h2⟩ := writes_edit hh db req
    obtain ⟨g1, t1, hg1, ht1⟩ := h1.history_extends hg
    obtain ⟨g2, t2, hg2, ht2⟩ := h2.history_extends hg1
    exact ⟨g2, t1 ++ t2, hg2, by rw [ht2, ht1, List.append_assoc]⟩
  | delete => exact absurd rfl hroute.1
  | adminFix => exact (writes_adminFix db req).history_extends hg
  | adminFixDrafts => exact absurd rfl hroute.2

/-- C4 witness: the resubmission of the rejected goal 7 through the edit
route. -/
theorem history_append_only_witness :
    ∃ g' t, (handle keepOwnerName .edit dbRejectedAfterAdminSubmit
        (requestOf 101 { emptyBody with title := "t", resubmit := true })).2.findGoalById 7 = some g' ∧
      g'.history = ((dbRejectedAfterAdminSubmit.findGoalById 7).get (by decide)).history ++ t :=
  history_append_only keepOwnerName keepOwnerName_touches .edit dbRejectedAfterAdminSubmit
    (requestOf 101 { emptyBody with title := "t", resubmit := true }) 7
    ((dbRejectedAfterAdminSubmit.findGoalById 7).get (by decide)) (by decide) (by decide)

/-! ## The edit route -/

/-- What the tail of the edit route can do: raise before anything is
written; or write the edited document and then, by `resubmit`, stop there,
raise, or write the resubmitted document. -/
theorem editSave_shape {ensureOwnerName : Goal → Option Goal}
    (hh : TouchesOwnerNameOnly ensureOwnerName) (db : Db) (req : Request) (e : Employee)
    (goal : Goal) :
    editSave ensureOwnerName db req e goal = (.raised, db) ∨
      ∃ n1 db1, db.save { goal with ownerName := n1 } = some db1 ∧
        ((req.body.resubmit = false ∧
            editSave ensureOwnerName db req e goal = (.redirect "/goals", db1)) ∨
          (req.body.resubmit = true ∧
            (editSave ensureOwnerName db req e goal = (.raised, db1) ∨
              ∃ n2 db2,
                db1.save { resubmitted { goal with ownerName := n1 } e req.now with ownerName := n2 }
                  = some db2 ∧
                editSave ensureOwnerName db req e goal = (.redirect "/goals", db2)))) := by
  cases hhe : ensureOwnerName goal with
  | none => exact Or.inl (by simp only [editSave, hhe])
  | some g1 =>
    have hfr := hh goal g1 hhe
    cases hsv : db.save g1 with
    | none => exact Or.inl (by simp only [editSave, hhe, hsv])
    | some db1 =>
      refine Or.inr ⟨g1.ownerName, db1, by rw [← hfr]; exact hsv, ?_⟩
      by_cases hr : req.body.resubmit = true
      · right
        refine ⟨hr, ?_⟩
        have h : editSave ensureOwnerName db req e goal
            = finish ensureOwnerName db1 (resubmitted g1 e req.now) (.redirect "/goals") := by
          simp only [editSave, hhe, hsv, hr, if_true]
        rw [h]
        rcases finish_cases ensureOwnerName db1 (resubmitted g1 e req.now) (.redirect "/goals")
          with hf | ⟨g2, db2, hg2, hs2, hf⟩
        · exact Or.inl hf
        · right
          have hfr2 := hh _ g2 hg2
          refine ⟨g2.ownerName, db2, ?_, hf⟩
          rw [← hfr, ← hfr2]
          exact hs2
      · left
        have hr' : req.body.resubmit = false := by simpa using hr
        refine ⟨hr', ?_⟩
        simp only [editSave, hhe, hsv, hr']
        rfl

/-- What the edit route can do: write nothing and not succeed, or reach its
tail with the edited document of the stored goal. -/
theorem edit_shape (ensureOwnerName : Goal → Option Goal) (db : Db) (req : Request) :
    ((edit ensureOwnerName db req).2 = db ∧ (edit ensureOwnerName db req).1 ≠ .redirect "/goals") ∨
      ∃ u e g ca, req.session.userId = some u ∧ db.findEmployeeByUserId u = some e ∧
        db.findGoalById req.id = some g ∧
        edit ensureOwnerName db req = editSave ensureOwnerName db req e (edited g req.body ca) := by
  unfold edit requireLogin
  dsimp only
  repeat' split
  all_goals first
    | exact Or.inl ⟨rfl, by simp⟩
    | exact Or.inr ⟨_, _, _, _, by assumption, by assumption, by assumption, rfl⟩

theorem resubmitted_reject2 {goal : Goal} {e : Employee} {now : Nat}
    (h : lastAction goal = some .reject2) :
    resubmitted goal e now =
      { goal with
        status := .pending2
        history := goal.history ++
          [{ action := .submit2, by_ := some e._id, date := now, comment := none }] } := by
  simp [resubmitted, h]

theorem resubmitted_other {goal : Goal} {e : Employee} {now : Nat}
    (h : lastAction goal ≠ some .reject2) :
    resubmitted goal e now =
      { goal with
        status := .pending1
        currentApprover := if goal.ownerId.isSome then goal.ownerId else goal.currentApprover
        history := goal.history ++
          [{ action := .submit1, by_ := some e._id, date := now, comment := none }] } := by
  simp [resubmitted, h]

/-- C19: edit without the resubmit flag leaves, on every stored goal, the
status, history, progress, grade, `createdBy` and `ownerId` (and `_id`,
`createdByName`, `createdAt`) as they were; and on a goal whose status is
`pending1`, `pending2` or `completed` edit writes nothing and answers 403
(404 for a session without employee record, the login redirect for no
session). -/
theorem edit_frame (ensureOwnerName : Goal → Option Goal)
    (hh : TouchesOwnerNameOnly ensureOwnerName) (db : Db) (req : Request) :
    (req.body.resubmit = false → ∀ i x, db.findGoalById i = some x →
        ∃ x', (edit ensureOwnerName db req).2.findGoalById i = some x' ∧
          x'.status = x.status ∧ x'.history = x.history ∧ x'.progress = x.progress ∧
          x'.grade = x.grade ∧ x'.createdBy = x.createdBy ∧ x'.ownerId = x.ownerId ∧
          x'._id = x._id ∧ x'.createdByName = x.createdByName ∧ x'.createdAt = x.createdAt) ∧
      (∀ g, db.findGoalById req.id = some g →
        g.status = .pending1 ∨ g.status = .pending2 ∨ g.status = .completed →
        (edit ensureOwnerName db req).2 = db ∧
          ((edit ensureOwnerName db req).1 = .status 403 "権限なし" ∨
            (edit ensureOwnerName db req).1 = .status 404 "社員情報が見つかりません" ∨
            (edit ensureOwnerName db req).1 = .redirect "/login")) := by
  constructor
  · intro hr i x hx
    have same : ∀ db', db' = db → ∃ x', db'.findGoalById i = some x' ∧
        x'.status = x.status ∧ x'.history = x.history ∧ x'.progress = x.progress ∧
        x'.grade = x.grade ∧ x'.createdBy = x.createdBy ∧ x'.ownerId = x.ownerId ∧
        x'._id = x._id ∧ x'.createdByName = x.createdByName ∧ x'.createdAt = x.createdAt := by
      intro db' h
      subst h
      exact ⟨x, hx, rfl, rfl, rfl, rfl, rfl, rfl, rfl, rfl, rfl⟩
    rcases edit_shape ensureOwnerName db req with ⟨h, _⟩ | ⟨u, e, g, ca, _, _, hg, heq⟩
    · exact same _ h
    · rw [heq]
      rcases editSave_shape hh db req e (edited g req.body ca) with hraise | ⟨n1, db1, hs1, hcase⟩
      · rw [hraise]
        exact same _ rfl
      · rcases hcase with ⟨_, hres⟩ | ⟨ht, _⟩
        · rw [hres]
          show ∃ x', db1.findGoalById i = some x' ∧ _
          rw [findGoalById_save hs1 i, hx]
          by_cases hxi : x._id = g._id
          · have h1 : i = req.id := by
              rw [← findGoalById_id hx, ← findGoalById_id hg, hxi]
            subst h1
            obtain rfl : x = g := Option.some.inj (hx.symm.trans hg)
            refine ⟨{ edited x req.body ca with ownerName := n1 }, ?_,
              rfl, rfl, rfl, rfl, rfl, rfl, rfl, rfl, rfl⟩
            simp [edited]
          · refine ⟨x, ?_, rfl, rfl, rfl, rfl, rfl, rfl, rfl, rfl, rfl⟩
            simp [edited, hxi]
        · rw [hr] at ht
          simp at ht
  · intro g hg hs
    have hst : (g.status == Status.draft || g.status == Status.approved1
        || g.status == Status.rejected) = false := by
      rcases hs with h | h | h <;> simp [h]
    cases hu : req.session.userId with
    | none => simp [edit, requireLogin, hu]
    | some u =>
      cases he : db.findEmployeeByUserId u with
      | none => simp [edit, requireLogin, hu, he, hg]
      | some e =>
        by_cases hc : creatorId g = some e._id
        · simp [edit, requireLogin, hu, he, hg, hc, hst]
        · simp [edit, requireLogin, hu, he, hg, hc]

/-- C19 witness: E1 edits the title of the draft goal 7; the edit of the
pending goal is refused. -/
theorem edit_frame_witness :
    (∃ x', (edit keepOwnerName dbDraft (requestOf 101 { emptyBody with title := "t2" })).2.findGoalById 7
          = some x' ∧
        x'.status = ((dbDraft.findGoalById 7).get (by decide)).status ∧
        x'.history = ((dbDraft.findGoalById 7).get (by decide)).history ∧
        x'.progress = ((dbDraft.findGoalById 7).get (by decide)).progress ∧
        x'.grade = ((dbDraft.findGoalById 7).get (by decide)).grade ∧
        x'.createdBy = ((dbDraft.findGoalById 7).get (by decide)).createdBy ∧
        x'.ownerId = ((dbDraft.findGoalById 7).get (by decide)).ownerId ∧
        x'._id = ((dbDraft.findGoalById 7).get (by decide))._id ∧
        x'.createdByName = ((dbDraft.findGoalById 7).get (by decide)).createdByName ∧
        x'.createdAt = ((dbDraft.findGoalById 7).get (by decide)).createdAt) ∧
      ((edit keepOwnerName dbPending1 (requestOf 101 { emptyBody with title := "t2" })).2 = dbPending1 ∧
        ((edit keepOwnerName dbPending1 (requestOf 101 { emptyBody with title := "t2" })).1
            = .status 403 "権限なし" ∨
          (edit keepOwnerName dbPending1 (requestOf 101 { emptyBody with title := "t2" })).1
            = .status 404 "社員情報が見つかりません" ∨
          (edit keepOwnerName dbPending1 (requestOf 101 { emptyBody with title := "t2" })).1
            = .redirect "/login")) :=
  ⟨(edit_frame keepOwnerName keepOwnerName_touches dbDraft
      (requestOf 101 { emptyBody with title := "t2" })).1 rfl 7
      ((dbDraft.findGoalById 7).get (by decide)) (by decide),
    (edit_frame keepOwnerName keepOwnerName_touches dbPending1
      (requestOf 101 { emptyBody with title := "t2" })).2
      ((dbPending1.findGoalById 7).get (by decide)) (by decide) (by decide)⟩

/-! ## Deletion -/

/-- C17 (counterexample): goal 7 is `completed`; its creator E1 requests
delete: the request succeeds and the goal is no longer stored. -/
theorem delete_removes_completed :
    dbCompleted.statusOf 7 = some .completed ∧
      (delete dbCompleted (requestOf 101 emptyBody)).1 = .redirect "/goals" ∧
      (delete dbCompleted (requestOf 101 emptyBody)).2.findGoalById 7 = none := by
  decide

theorem find_eraseP_other (l : List Goal) (id i : ObjectId) (h : i ≠ id) :
    (l.eraseP (fun g => g._id == id)).find? (fun g => g._id == i)
      = l.find? (fun g => g._id == i) := by
  induction l with
  | nil => rfl
  | cons x xs ih =>
    by_cases hx : x._id = id
    · have hxi : ¬ x._id = i := fun hxi => h (hxi.symm.trans hx)
      simp [List.eraseP_cons, hx, List.find?_cons, hxi, h.symm]
    · have hb : (x._id == id) = false := by simpa using hx
      by_cases hxi : x._id = i
      · subst hxi
        simp [List.eraseP_cons, hb, List.find?_cons]
      · simp [List.eraseP_cons, hb, List.find?_cons, hxi, ih]

/-- C17 (amended): delete does not look at the status.  Requested by the
goal's creator it removes the goal, whatever its status, and keeps the other
goals; requested by anyone else (admin rights do not matter) it is refused
with 403 and the goal remains stored. -/
theorem delete_by_creator_only (db : Db) (req : Request) (u : ObjectId) (e : Employee)
    (g : Goal) (hu : req.session.userId = some u) (he : db.findEmployeeByUserId u = some e)
    (hg : db.findGoalById req.id = some g) :
    (creatorId g = some e._id →
        (delete db req).1 = .redirect "/goals" ∧
          (delete db req).2.goals.length + 1 = db.goals.length ∧
          ∀ i, i ≠ req.id → (delete db req).2.findGoalById i = db.findGoalById i) ∧
      (creatorId g ≠ some e._id → delete db req = (.status 403 "権限なし", db)) := by
  have hid := findGoalById_id hg
  constructor
  · intro hc
    have hd : delete db req = (.redirect "/goals", db.deleteOne req.id) := by
      simp [delete, requireLogin, hu, he, hg, hc, hid]
    rw [hd]
    refine ⟨rfl, ?_, ?_⟩
    · have hmem := findGoalById_mem hg
      have hlen : (db.goals.eraseP (fun x => x._id == req.id)).length = db.goals.length - 1 :=
        List.length_eraseP_of_mem hmem (by simp [hid])
      have hpos : 0 < db.goals.length := List.length_pos_of_mem hmem
      show (db.goals.eraseP (fun x => x._id == req.id)).length + 1 = db.goals.length
      omega
    · intro i hi
      exact find_eraseP_other db.goals req.id i hi
  · intro hc
    simp [delete, requireLogin, hu, he, hg, hc]

/-- C17 witness: on the completed goal 7, E1 is the creator and A1 is not. -/
theorem delete_by_creator_only_witness :
    ((delete dbCompleted (requestOf 101 emptyBody)).1 = .redirect "/goals" ∧
        (delete dbCompleted (requestOf 101 emptyBody)).2.goals.length + 1
          = dbCompleted.goals.length ∧
        ∀ i, i ≠ (requestOf 101 emptyBody).id →
          (delete dbCompleted (requestOf 101 emptyBody)).2.findGoalById i
            = dbCompleted.findGoalById i) ∧
      delete dbCompleted (adminRequestOf 102 emptyBody) = (.status 403 "権限なし", dbCompleted) :=
  ⟨(delete_by_creator_only dbCompleted (requestOf 101 emptyBody) 101 e1
      ((dbCompleted.findGoalById 7).get (by decide)) rfl (by decide) (by decide)).1 (by decide),
    (delete_by_creator_only dbCompleted (adminRequestOf 102 emptyBody) 102 a1
      ((dbCompleted.findGoalById 7).get (by decide)) rfl (by decide) (by decide)).2 (by decide)⟩

/-! ## Unknown ids -/

/-- C20 (the code at the failing input): no goal has id 7.  `approve1` raises
for it, with and without admin rights, where every other route answers 404;
nothing is written. -/
theorem approve1_unknown_goal_raises :
    db0.findGoalById 7 = none ∧
      approve1 keepOwnerName db0 (requestOf 102 emptyBody) = (.raised, db0) ∧
      approve1 keepOwnerName db0 (adminRequestOf 102 emptyBody) = (.raised, db0) ∧
      submit1 keepOwnerName db0 (requestOf 102 emptyBody)
        = (.status 404 "目標が見つかりません", db0) ∧
      reject1 keepOwnerName db0 (requestOf 102 emptyBody)
        = (.status 404 "目標が見つかりません", db0) ∧
      evaluate keepOwnerName db0 (requestOf 102 emptyBody)
        = (.status 404 "目標が見つかりません", db0) ∧
      approve2 keepOwnerName db0 (requestOf 102 emptyBody)
        = (.status 404 "目標が見つかりません", db0) ∧
      reject2 keepOwnerName db0 (requestOf 102 emptyBody)
        = (.status 404 "目標が見つかりません", db0) ∧
      edit keepOwnerName db0 (requestOf 102 emptyBody)
        = (.status 404 "目標が見つかりません", db0) ∧
      delete db0 (requestOf 102 emptyBody) = (.status 404 "目標が見つかりません", db0) := by
  decide

/-! ## The recommendation rules -/

instance : IsTotal Recommendation byConfidence :=
  ⟨fun a b => Int.le_total b.confidence a.confidence⟩

instance : IsTrans Recommendation byConfidence :=
  ⟨fun _ _ _ hab hbc => Int.le_trans hbc hab⟩

/-- At most six rules fire at once. -/
theorem recs_length_le (i : Summaries) : (recs i).length ≤ 6 := by
  have h1 : (leaveRecs i).length ≤ 1 := by
    unfold leaveRecs
    repeat' split
    all_goals simp
  have h2 : (overtimeRecs i).length ≤ 1 := by
    unfold overtimeRecs
    repeat' split
    all_goals simp
  have h4 : (payrollRecs i).length ≤ 1 := by
    unfold payrollRecs
    repeat' split
    all_goals simp
  have h5 : (unpostedRecs i).length ≤ 1 := by
    unfold unpostedRecs
    repeat' split
    all_goals simp
  have h3 : (goalLowRecs i).length + (trainingRecs i).length + (goalUnsetRecs i).length ≤ 2 := by
    unfold goalLowRecs trainingRecs goalUnsetRecs
    cases i.goalSummary with
    | none => simp
    | some g =>
      cases hp : g.personal with
      | none => simp [ltNum, hp]
      | some v =>
        simp only [hp, Option.isNone_some, Bool.false_eq_true, if_false, List.length_nil,
          Nat.add_zero]
        repeat' split
        all_goals simp
  simp only [recs, List.length_append]
  omega

/-- The cut to six elements never removes a recommendation. -/
theorem computeAIRecommendations_eq_sort (i : Summaries) :
    computeAIRecommendations i = (recs i).insertionSort byConfidence := by
  unfold computeAIRecommendations
  apply List.take_of_length_le
  rw [List.length_insertionSort]
  exact recs_length_le i

theorem mem_computeAIRecommendations (i : Summaries) (r : Recommendation) :
    r ∈ computeAIRecommendations i ↔ r ∈ recs i := by
  rw [computeAIRecommendations_eq_sort]
  exact (List.perm_insertionSort byConfidence (recs i)).mem_iff

/-- C22: the list returned by `computeAIRecommendations` is in non-increasing
order of confidence: every element has a confidence at least that of every
element after it, for every combination of present and absent summaries. -/
theorem computeAIRecommendations_sorted (i : Summaries) :
    (computeAIRecommendations i).Pairwise (fun a b => b.confidence ≤ a.confidence) := by
  have h : ((recs i).insertionSort byConfidence).Sorted byConfidence :=
    List.sorted_insertionSort byConfidence (recs i)
  exact List.Pairwise.sublist (List.take_sublist 6 _) h

/-- C23: `computeAIRecommendations` returns at most six recommendations, and
at most six rules fire at once: the two leave rules exclude each other, the
two overtime rules exclude each other, and the rule for a goal that is not
set excludes both rules on the goal progress.  So the result is the whole
list of fired rules in sorted order; the cut to six discards nothing. -/
theorem at_most_six_recommendations (i : Summaries) :
    (computeAIRecommendations i).length ≤ 6 ∧ (recs i).length ≤ 6 ∧
      computeAIRecommendations i = (recs i).insertionSort byConfidence ∧
      (computeAIRecommendations i).Perm (recs i) ∧
      (leaveRecs i).length ≤ 1 ∧ (overtimeRecs i).length ≤ 1 ∧
      (goalUnsetRecs i ≠ [] → goalLowRecs i = [] ∧ trainingRecs i = []) := by
  have hsort := computeAIRecommendations_eq_sort i
  refine ⟨?_, recs_length_le i, hsort, ?_, ?_, ?_, ?_⟩
  · rw [hsort, List.length_insertionSort]
    exact recs_length_le i
  · rw [hsort]
    exact List.perm_insertionSort byConfidence (recs i)
  · unfold leaveRecs
    repeat' split
    all_goals simp
  · unfold overtimeRecs
    repeat' split
    all_goals simp
  · unfold goalUnsetRecs goalLowRecs trainingRecs
    cases i.goalSummary with
    | none => simp
    | some g =>
      cases hp : g.personal with
      | none => simp [ltNum, hp]
      | some v => simp [hp]

/-- C24 (counterexample): with two upcoming leaves and one pending leave
request, `pending > 0` holds and the result is the single recommendation of
confidence 88; the pending-leave recommendation (confidence 84) is not in
it. -/
theorem pending_leave_rule_shadowed :
    gtNum (LeaveSummary.pending { upcoming := some 2, pending := some 1 }) 0 = true ∧
      (computeAIRecommendations leaveBoth).map (fun r => (r.title, r.confidence))
        = [("休暇残確認", 88)] ∧
      ∀ r ∈ computeAIRecommendations leaveBoth, r.confidence ≠ 84 := by
  decide

/-- C24 (amended): the result contains the recommendation of every rule that
fires.  With `leaveSummary.pending > 0` it contains the pending-leave
recommendation (confidence 84) provided `leaveSummary.upcoming >= 2` does
not hold, since that rule is the `else` branch of the upcoming-leave rule;
with `attendanceSummary.overtime >= 20` it contains the overtime-reduction
recommendation (confidence 92) whatever the other fields are. -/
theorem fired_rules_are_returned (i : Summaries) :
    (∀ l p, i.leaveSummary = some l → l.pending = some p → 0 < p →
        (∀ u, l.upcoming = some u → u < 2) →
        ∃ r ∈ computeAIRecommendations i, r.title = "休暇承認待ち" ∧ r.confidence = 84) ∧
      (∀ a h, i.attendanceSummary = some a → a.overtime = some h → 20 ≤ h →
        ∃ r ∈ computeAIRecommendations i, r.title = "残業軽減の提案" ∧ r.confidence = 92) := by
  constructor
  · intro l p hl hp hpos hup
    have hge : geNum l.upcoming 2 = false := by
      cases hu : l.upcoming with
      | none => rfl
      | some u =>
        have := hup u hu
        simp only [geNum, decide_eq_false_iff_not]
        omega
    have hgt : gtNum l.pending 0 = true := by simp [gtNum, hp, hpos]
    have hmem : ∃ r ∈ leaveRecs i, r.title = "休暇承認待ち" ∧ r.confidence = 84 := by
      simp [leaveRecs, hl, hge, hgt]
    obtain ⟨r, hr, h1, h2⟩ := hmem
    refine ⟨r, (mem_computeAIRecommendations i r).2 ?_, h1, h2⟩
    simp only [recs, List.mem_append]
    tauto
  · intro a h ha hh hge
    have hg : geNum a.overtime 20 = true := by simp [geNum, hh, hge]
    have hmem : ∃ r ∈ overtimeRecs i, r.title = "残業軽減の提案" ∧ r.confidence = 92 := by
      simp [overtimeRecs, ha, hg]
    obtain ⟨r, hr, h1, h2⟩ := hmem
    refine ⟨r, (mem_computeAIRecommendations i r).2 ?_, h1, h2⟩
    simp only [recs, List.mem_append]
    tauto

/-- C24 witness: one pending leave request without upcoming leave, and 25
hours of overtime. -/
theorem fired_rules_are_returned_witness :
    (∃ r ∈ computeAIRecommendations leavePendingOvertime,
        r.title = "休暇承認待ち" ∧ r.confidence = 84) ∧
      (∃ r ∈ computeAIRecommendations leavePendingOvertime,
        r.title = "残業軽減の提案" ∧ r.confidence = 92) :=
  ⟨(fired_rules_are_returned leavePendingOvertime).1 { upcoming := some 0, pending := some 1 } 1
      rfl rfl (by decide) (by intro u hu; cases hu; decide),
    (fired_rules_are_returned leavePendingOvertime).2 { overtime := some 25 } 25
      rfl rfl (by decide)⟩

/-! ## The pretest grader -/

theorem interviewScore_def (answers : Nat → Option String) (k : Nat) :
    interviewScore answers k =
      if interviewText answers k = "" then 0
      else if (interviewKeywords k).length ≠ 0 then
        min 1 ((interviewMatched answers k : ℚ) / (max 1 (interviewKeywords k).length : ℕ))
      else if interviewText answers k ≠ "" then 1 / 2
      else 0 :=
  rfl

theorem interviewScores_def (answers : Nat → Option String) :
    interviewScores answers = (List.range' 1 20).map (fun k => (k, interviewScore answers k)) :=
  rfl

theorem rawScore_def (answers : Nat → Option String) :
    rawScore answers = ((interviewScores answers).map (fun e => e.2)).sum +
      ((codeScores answers).map (fun e => e.2)).sum :=
  rfl

theorem computePretestScore_def (answers : Nat → Option String) :
    computePretestScore answers =
      { score := (mathRound (min 40 (rawScore answers) * 100) : ℚ) / 100
        total := 40
        perQuestionScores := interviewScores answers ++ codeScores answers } :=
  rfl

theorem interviewScore_empty {answers : Nat → Option String} {k : Nat}
    (h : answers k = none ∨ answers k = some "") : interviewScore answers k = 0 := by
  have ht : interviewText answers k = "" := by
    rcases h with h | h <;> simp [interviewText, interviewTextWith, h] <;> rfl
  simp [interviewScore_def, ht]

theorem codeScore_empty {answers : Nat → Option String} {k : Nat}
    (h : answers k = none ∨ answers k = some "") : codeScore answers k = 0 := by
  rcases h with h | h <;> simp [codeScore, h]

theorem mem_perQuestionScoresWith {lower : String → String} {answers : Nat → Option String}
    {k : Nat} {p : ℚ} :
    (k, p) ∈ (computePretestScoreWith lower answers).perQuestionScores ↔
      (1 ≤ k ∧ k ≤ 20 ∧ p = interviewScoreWith lower answers k) ∨
        (21 ≤ k ∧ k ≤ 40 ∧ p = codeScore answers k) := by
  simp only [computePretestScoreWith, interviewScoresWith, codeScores, List.mem_append, List.mem_map,
    List.mem_range'_1, Prod.mk.injEq]
  constructor
  · rintro (⟨j, ⟨h1, h2⟩, rfl, rfl⟩ | ⟨j, ⟨h1, h2⟩, rfl, rfl⟩)
    · exact Or.inl ⟨h1, by omega, rfl⟩
    · exact Or.inr ⟨h1, by omega, rfl⟩
  · rintro (⟨h1, h2, rfl⟩ | ⟨h1, h2, rfl⟩)
    · exact Or.inl ⟨k, ⟨h1, by omega⟩, rfl, rfl⟩
    · exact Or.inr ⟨k, ⟨h1, by omega⟩, rfl, rfl⟩

theorem mem_perQuestionScores {answers : Nat → Option String} {k : Nat} {p : ℚ} :
    (k, p) ∈ (computePretestScore answers).perQuestionScores ↔
      (1 ≤ k ∧ k ≤ 20 ∧ p = interviewScore answers k) ∨
        (21 ≤ k ∧ k ≤ 40 ∧ p = codeScore answers k) :=
  mem_perQuestionScoresWith

theorem sum_map_single (f : Nat → ℚ) (a : Nat) :
    ∀ l : List Nat, l.Nodup → a ∈ l → (∀ k ∈ l, k ≠ a → f k = 0) → (l.map f).sum = f a
  | [], _, ha, _ => by simp at ha
  | x :: xs, hnd, ha, h0 => by
    have hx : x ∉ xs := (List.nodup_cons.mp hnd).1
    have hnd' : xs.Nodup := (List.nodup_cons.mp hnd).2
    by_cases hxa : x = a
    · subst hxa
      have hz : (xs.map f).sum = 0 := by
        apply List.sum_eq_zero
        intro y hy
        obtain ⟨k, hk, rfl⟩ := List.mem_map.mp hy
        exact h0 k (List.mem_cons_of_mem _ hk) (fun h => hx (h ▸ hk))
      simp [hz]
    · have ha' : a ∈ xs := by
        rcases List.mem_cons.mp ha with h | h
        · exact absurd h.symm hxa
        · exact h
      have := sum_map_single f a xs hnd' ha' (fun k hk hka => h0 k (List.mem_cons_of_mem _ hk) hka)
      simp [this, h0 x (List.mem_cons_self _ _) hxa]

theorem rawScore_eq (answers : Nat → Option String) :
    rawScore answers = ((List.range' 1 20).map (interviewScore answers)).sum +
      ((List.range' 21 20).map (codeScore answers)).sum := by
  simp [rawScore_def, interviewScores_def, codeScores, List.map_map, Function.comp_def]

theorem scenario6_interview (k : Nat) (hk : k ≤ 20) :
    interviewScore scenario6 k = if k = 1 then 1 / 4 else 0 := by
  by_cases h : k = 1
  · subst h
    have h1 : interviewText scenario6 1 ≠ "" := by decide
    have h2 : interviewMatched scenario6 1 = 1 := by decide
    have h3 : (interviewKeywords 1).length = 4 := rfl
    simp only [interviewScore_def, h1, h2, h3, if_false, if_true]
    norm_num
  · rw [if_neg h]
    apply interviewScore_empty
    left
    have h21 : k ≠ 21 := by omega
    simp [scenario6, h, h21]

theorem scenario6_code (k : Nat) (hk : 21 ≤ k) :
    codeScore scenario6 k = if k = 21 then 1 / 2 else 0 := by
  by_cases h : k = 21
  · subst h
    have h1 : (scenario6 21).getD "" ≠ "" := by decide
    have h2 : codeMatched scenario6 21 = 1 := by decide
    simp [codeScore, h1, h2]
  · rw [if_neg h]
    apply codeScore_empty
    left
    have h1 : k ≠ 1 := by omega
    simp [scenario6, h, h1]

theorem scenario6_rawScore : rawScore scenario6 = 3 / 4 := by
  rw [rawScore_eq]
  have hi : ((List.range' 1 20).map (interviewScore scenario6)).sum = interviewScore scenario6 1 :=
    sum_map_single _ 1 _ (List.nodup_range' 1 20) (by decide)
      (fun k hk hne => by
        have hk' := (List.mem_range'_1.mp hk)
        rw [scenario6_interview k (by omega), if_neg hne])
  have hc : ((List.range' 21 20).map (codeScore scenario6)).sum = codeScore scenario6 21 :=
    sum_map_single _ 21 _ (List.nodup_range' 21 20) (by decide)
      (fun k hk hne => by
        have hk' := (List.mem_range'_1.mp hk)
        rw [scenario6_code k (by omega), if_neg hne])
  rw [hi, hc, scenario6_interview 1 (by omega), scenario6_code 21 (by omega)]
  norm_num

theorem mathRound_eq_iff (x : ℚ) (z : ℤ) : mathRound x = z ↔ (z : ℚ) ≤ x + 1 / 2 ∧ x + 1 / 2 < z + 1 := by
  show ⌊x + 1 / 2⌋ = z ↔ _
  exact Int.floor_eq_iff

/-- C25: for the answers `q1 = "heap garbage collector"`,
`q21 = "new ArrayList()"` and nothing else, the score is 0.75, strictly
between 0 and 2; the per-question score is positive for q1 (0.25) and for q21
(0.5) and is 0 for every other question; and for any answers, a question
whose answer is missing or empty has per-question score 0. -/
theorem scenario6_scores :
    (computePretestScore scenario6).score = 3 / 4 ∧
      0 < (computePretestScore scenario6).score ∧ (computePretestScore scenario6).score < 2 ∧
      (computePretestScore scenario6).perQuestionScores.map (fun e => e.1) = List.range' 1 40 ∧
      (∀ k p, (k, p) ∈ (computePretestScore scenario6).perQuestionScores →
        (k = 1 → p = 1 / 4) ∧ (k = 21 → p = 1 / 2) ∧ (k ≠ 1 → k ≠ 21 → p = 0)) ∧
      (∀ (answers : Nat → Option String) k p,
        (k, p) ∈ (computePretestScore answers).perQuestionScores →
        answers k = none ∨ answers k = some "" → p = 0) := by
  have hs : (computePretestScore scenario6).score = 3 / 4 := by
    have hr : mathRound (min 40 (rawScore scenario6) * 100) = 75 := by
      rw [mathRound_eq_iff, scenario6_rawScore]
      norm_num
    simp only [computePretestScore_def, hr]
    norm_num
  refine ⟨hs, by rw [hs]; norm_num, by rw [hs]; norm_num, ?_, ?_, ?_⟩
  · simp only [computePretestScore_def, interviewScores_def, codeScores, List.map_append, List.map_map,
      Function.comp_def, List.map_id']
    decide
  · intro k p hmem
    rcases mem_perQuestionScores.mp hmem with ⟨h1, h2, rfl⟩ | ⟨h1, h2, rfl⟩
    · rw [scenario6_interview k h2]
      refine ⟨fun h => by rw [if_pos h], fun h => by omega, fun h _ => by rw [if_neg h]⟩
    · rw [scenario6_code k h1]
      refine ⟨fun h => by omega, fun h => by rw [if_pos h], fun _ h => by rw [if_neg h]⟩
  · intro answers k p hmem hempty
    rcases mem_perQuestionScores.mp hmem with ⟨_, _, rfl⟩ | ⟨_, _, rfl⟩
    · exact interviewScore_empty hempty
    · exact codeScore_empty hempty

theorem interviewKeywords_length_pos (k : Nat) (h1 : 1 ≤ k) (h20 : k ≤ 20) :
    0 < (interviewKeywords k).length := by
  interval_cases k <;> decide

theorem startsWith_iff_leading (p : List Char) :
    ∀ t : List Char, startsWith false p t = true ↔ p <+: t := by
  induction p with
  | nil => intro t; simp [startsWith]
  | cons a ps ih =>
    intro t
    cases t with
    | nil => simp [startsWith]
    | cons c cs => simp [startsWith, sameChar, ih cs, List.cons_prefix_cons]

/-- The search `txt.indexOf(w) !== -1` of the model finds exactly the
keywords whose characters are a contiguous part of the text. -/
theorem includes_iff_contiguous (txt w : String) : includes txt w = true ↔ w.data <:+: txt.data := by
  simp only [includes, List.any_eq_true, List.mem_tails, startsWith_iff_leading]
  constructor
  · rintro ⟨t, hs, hp⟩
    exact List.infix_iff_prefix_suffix.mpr ⟨t, hp, hs⟩
  · intro h
    obtain ⟨t, hp, hs⟩ := List.infix_iff_prefix_suffix.mp h
    exact ⟨t, hs, hp⟩

theorem interviewMatchedWith_eq (lower : String → String) (answers : Nat → Option String) (k : Nat) :
    interviewMatchedWith lower answers k = keywordsOccurring k (lower ((answers k).getD "")) := by
  unfold interviewMatchedWith keywordsOccurring interviewTextWith
  congr 1
  apply List.filter_congr
  intro w _
  rw [Bool.eq_iff_iff]
  simp [includes_iff_contiguous]

theorem keywordsOccurring_le (k : Nat) (txt : String) :
    keywordsOccurring k txt ≤ (interviewKeywords k).length :=
  List.length_filter_le _ _

theorem keywordsOccurring_empty (k : Nat) : keywordsOccurring k "" = 0 := by
  unfold keywordsOccurring interviewKeywords
  split <;> decide

theorem interviewScore_le_one (answers : Nat → Option String) (k : Nat) :
    0 ≤ interviewScore answers k ∧ interviewScore answers k ≤ 1 := by
  rw [interviewScore_def]
  split
  · norm_num
  · split
    · refine ⟨le_min (by norm_num) (div_nonneg (Nat.cast_nonneg _) (Nat.cast_nonneg _)),
        min_le_left _ _⟩
    · norm_num

/-- C26: for every answers map and every interview question `k` of q1-q20,
whatever the built-in `toLowerCase` returns, the per-question score of `k`
is the number of the keywords of `k` that occur as a substring of the
lower-cased answer, divided by the number of keywords of `k`; the entry for
`k` in `perQuestionScores` has this value and no other, and the value lies
in [0, 1].  No hypothesis on the answer is needed: for an empty answer both
sides are 0. -/
theorem interviewScore_fraction (lower : String → String) (answers : Nat → Option String) (k : Nat)
    (h1 : 1 ≤ k) (h20 : k ≤ 20) :
    (∀ p, (k, p) ∈ (computePretestScoreWith lower answers).perQuestionScores ↔
        p = (keywordsOccurring k (lower ((answers k).getD "")) : ℚ) / ((interviewKeywords k).length : ℚ)) ∧
      0 ≤ (keywordsOccurring k (lower ((answers k).getD "")) : ℚ) / ((interviewKeywords k).length : ℚ) ∧
      (keywordsOccurring k (lower ((answers k).getD "")) : ℚ) / ((interviewKeywords k).length : ℚ) ≤ 1 := by
  have hpos : 0 < (interviewKeywords k).length := interviewKeywords_length_pos k h1 h20
  have hposq : (0 : ℚ) < ((interviewKeywords k).length : ℚ) := by exact_mod_cast hpos
  have hle : (keywordsOccurring k (lower ((answers k).getD "")) : ℚ) ≤ ((interviewKeywords k).length : ℚ) := by
    exact_mod_cast keywordsOccurring_le k _
  have hfrac : (keywordsOccurring k (lower ((answers k).getD "")) : ℚ) / ((interviewKeywords k).length : ℚ) ≤ 1 :=
    (div_le_one hposq).mpr hle
  have hscore : interviewScoreWith lower answers k =
      (keywordsOccurring k (lower ((answers k).getD "")) : ℚ) / ((interviewKeywords k).length : ℚ) := by
    unfold interviewScoreWith
    rw [interviewMatchedWith_eq]
    by_cases ht : interviewTextWith lower answers k = ""
    · have ht' : lower ((answers k).getD "") = "" := ht
      rw [if_pos ht, ht', keywordsOccurring_empty]
      simp
    · have hmax : max 1 (interviewKeywords k).length = (interviewKeywords k).length :=
        max_eq_right hpos
      rw [if_neg ht, if_pos (by omega), hmax]
      exact min_eq_right hfrac
  refine ⟨fun p => ?_, div_nonneg (Nat.cast_nonneg _) (Nat.cast_nonneg _), hfrac⟩
  rw [mem_perQuestionScoresWith, ← hscore]
  constructor
  · rintro (⟨_, _, h⟩ | ⟨h, _, _⟩)
    · exact h
    · omega
  · intro h
    exact Or.inl ⟨h1, h20, h⟩

/-- C26 witness: the answer "DI container" to q7, lower-cased by
`toLowerCase`, holds one of the two keywords of q7 (`di`), and the entry of
q7 is 1/2. -/
theorem interviewScore_fraction_witness :
    keywordsOccurring 7 (toLowerCase ((upperCaseQ7 7).getD "")) = 1 ∧
      (interviewKeywords 7).length = 2 ∧
      ((∀ p, (7, p) ∈ (computePretestScoreWith toLowerCase upperCaseQ7).perQuestionScores ↔
          p = (keywordsOccurring 7 (toLowerCase ((upperCaseQ7 7).getD "")) : ℚ)
            / ((interviewKeywords 7).length : ℚ)) ∧
        0 ≤ (keywordsOccurring 7 (toLowerCase ((upperCaseQ7 7).getD "")) : ℚ)
            / ((interviewKeywords 7).length : ℚ) ∧
        (keywordsOccurring 7 (toLowerCase ((upperCaseQ7 7).getD "")) : ℚ)
            / ((interviewKeywords 7).length : ℚ) ≤ 1) :=
  ⟨by decide, rfl, interviewScore_fraction toLowerCase upperCaseQ7 7 (by decide) (by decide)⟩

theorem sum_perQuestionScores (answers : Nat → Option String) :
    ((computePretestScore answers).perQuestionScores.map (fun e => e.2)).sum = rawScore answers := by
  simp [computePretestScore_def, rawScore_def, List.map_append, List.sum_append]

theorem oneKeywordQ2_rawScore : rawScore oneKeywordQ2 = 1 / 3 := by
  rw [rawScore_eq]
  have h2 : interviewScore oneKeywordQ2 2 = 1 / 3 := by
    have h1 : interviewText oneKeywordQ2 2 ≠ "" := by decide
    have hm : interviewMatched oneKeywordQ2 2 = 1 := by decide
    have hl : (interviewKeywords 2).length = 3 := rfl
    simp only [interviewScore_def, h1, hm, hl, if_false, if_true]
    norm_num
  have hi : ((List.range' 1 20).map (interviewScore oneKeywordQ2)).sum
      = interviewScore oneKeywordQ2 2 :=
    sum_map_single _ 2 _ (List.nodup_range' 1 20) (by decide)
      (fun k _ hne => interviewScore_empty (Or.inl (by simp [oneKeywordQ2, hne])))
  have hc : ((List.range' 21 20).map (codeScore oneKeywordQ2)).sum = 0 := by
    apply List.sum_eq_zero
    intro y hy
    obtain ⟨k, hk, rfl⟩ := List.mem_map.mp hy
    have hk' := List.mem_range'_1.mp hk
    have hne : k ≠ 2 := by omega
    exact codeScore_empty (Or.inl (by simp [oneKeywordQ2, hne]))
  rw [hi, hc, h2]
  norm_num

/-- C27 (counterexample): the answer to q2 names one of its three keywords
and nothing else is answered: the 40 per-question scores sum to 1/3, under
the cap of 40, and the score returned is 0.33. -/
theorem score_is_rounded :
    ((computePretestScore oneKeywordQ2).perQuestionScores.map (fun e => e.2)).sum = 1 / 3 ∧
      (computePretestScore oneKeywordQ2).score = 33 / 100 ∧
      (computePretestScore oneKeywordQ2).score
        ≠ min 40 (((computePretestScore oneKeywordQ2).perQuestionScores.map (fun e => e.2)).sum) := by
  have hsum := sum_perQuestionScores oneKeywordQ2
  rw [oneKeywordQ2_rawScore] at hsum
  have hs : (computePretestScore oneKeywordQ2).score = 33 / 100 := by
    have hr : mathRound (min 40 (rawScore oneKeywordQ2) * 100) = 33 := by
      rw [mathRound_eq_iff, oneKeywordQ2_rawScore]
      norm_num
    simp only [computePretestScore_def, hr]
    norm_num
  refine ⟨hsum, hs, ?_⟩
  rw [hs, hsum]
  norm_num

/-- C27 (amended): the score returned is the sum of the 40 per-question
scores, capped at 40 and then rounded to two decimals
(`Math.round(x * 100) / 100`): it is a whole number of hundredths and differs
from the capped sum by at most 0.005. -/
theorem score_rounded_sum (answers : Nat → Option String) :
    (computePretestScore answers).score =
        (mathRound (min 40
          (((computePretestScore answers).perQuestionScores.map (fun e => e.2)).sum) * 100) : ℚ) / 100 ∧
      |(computePretestScore answers).score
          - min 40 (((computePretestScore answers).perQuestionScores.map (fun e => e.2)).sum)|
        ≤ 1 / 200 := by
  rw [sum_perQuestionScores]
  refine ⟨rfl, ?_⟩
  show |(mathRound (min 40 (rawScore answers) * 100) : ℚ) / 100 - min 40 (rawScore answers)| ≤ 1 / 200
  obtain ⟨hlo, hhi⟩ := (mathRound_eq_iff (min 40 (rawScore answers) * 100) _).mp rfl
  rw [abs_le]
  constructor <;> linarith

theorem codeKeywords_length_le (k : Nat) : (codeKeywords k).length ≤ 1 := by
  unfold codeKeywords
  split <;> simp

theorem codeScore_values (answers : Nat → Option String) (k : Nat) :
    codeScore answers k = 0 ∨ codeScore answers k = 1 / 2 := by
  have hm : codeMatched answers k ≤ 1 :=
    le_trans (List.length_filter_le _ _) (codeKeywords_length_le k)
  unfold codeScore
  split
  · exact Or.inl rfl
  · split
    · omega
    · split
      · exact Or.inr rfl
      · exact Or.inl rfl

theorem rawScore_le (answers : Nat → Option String) : rawScore answers ≤ 30 := by
  rw [rawScore_eq]
  have hi : ((List.range' 1 20).map (interviewScore answers)).sum ≤ 20 := by
    have h := List.sum_le_card_nsmul ((List.range' 1 20).map (interviewScore answers)) 1
      (fun x hx => by
        obtain ⟨k, _, rfl⟩ := List.mem_map.mp hx
        exact (interviewScore_le_one answers k).2)
    simpa using h
  have hc : ((List.range' 21 20).map (codeScore answers)).sum ≤ 10 := by
    have h := List.sum_le_card_nsmul ((List.range' 21 20).map (codeScore answers)) (1 / 2)
      (fun x hx => by
        obtain ⟨k, _, rfl⟩ := List.mem_map.mp hx
        rcases codeScore_values answers k with h | h
        · rw [h]
          norm_num
        · exact le_of_eq h)
    have h10 : ((List.range' 21 20).map (codeScore answers)).length • (1 / 2 : ℚ) = 10 := by
      simp
      norm_num
    linarith
  linarith

/-- C29: for every answers map, each code question of q21-q40 scores 0 or
0.5 and never 1, because every list of `codeKeywords` holds one pattern and
the counter `matched` cannot reach 2; so the score returned never exceeds 30
(20 for the interview questions, 10 for the code questions), while `total`
is 40. -/
theorem code_questions_score_half (answers : Nat → Option String) :
    (∀ k, (codeKeywords k).length ≤ 1) ∧
      (∀ k p, (k, p) ∈ (computePretestScore answers).perQuestionScores → 21 ≤ k →
        p = 0 ∨ p = 1 / 2) ∧
      (computePretestScore answers).score ≤ 30 ∧ (computePretestScore answers).total = 40 := by
  refine ⟨codeKeywords_length_le, ?_, ?_, rfl⟩
  · intro k p hmem hk
    rcases mem_perQuestionScores.mp hmem with ⟨_, h20, _⟩ | ⟨_, _, rfl⟩
    · omega
    · exact codeScore_values answers k
  · show (mathRound (min 40 (rawScore answers) * 100) : ℚ) / 100 ≤ 30
    have hraw := rawScore_le answers
    have hmin : min 40 (rawScore answers) ≤ 30 := le_trans (min_le_right _ _) hraw
    obtain ⟨hlo, _⟩ := (mathRound_eq_iff (min 40 (rawScore answers) * 100) _).mp rfl
    have hz : (mathRound (min 40 (rawScore answers) * 100) : ℚ) < 3001 := by linarith
    have hz' : mathRound (min 40 (rawScore answers) * 100) < 3001 := by exact_mod_cast hz
    have hz'' : (mathRound (min 40 (rawScore answers) * 100) : ℚ) ≤ 3000 := by
      exact_mod_cast Int.lt_add_one_iff.mp hz'
    linarith

/-! ## The call that does not resolve -/

theorem finish_undeclared (db : Db) (goal : Goal) (resp : Response) :
    finish undeclaredEnsureOwnerName db goal resp = (.raised, db) :=
  rfl

theorem editSave_undeclared (db : Db) (req : Request) (e : Employee) (goal : Goal) :
    editSave undeclaredEnsureOwnerName db req e goal = (.raised, db) :=
  rfl

/-- C30 (the code as `server.js` declares it): `ensureOwnerName` resolves to
no function, so the call raises in front of `goal.save()`.  No transition
handler ever writes or answers with its success redirect, for any database
and request; and where the guards pass (E1 submitting its draft, A1
approving or rejecting the pending goal, E1 evaluating, A1 deciding at the
second stage, E1 editing) the handler raises and the stored goal keeps its
status. -/
theorem transitions_raise_before_save (db : Db) (req : Request) :
    ((submit1 undeclaredEnsureOwnerName db req).2 = db ∧
        (submit1 undeclaredEnsureOwnerName db req).1 ≠ .redirect "/goals") ∧
      ((approve1 undeclaredEnsureOwnerName db req).2 = db ∧
        (approve1 undeclaredEnsureOwnerName db req).1 ≠ .redirect "/goals") ∧
      ((reject1 undeclaredEnsureOwnerName db req).2 = db ∧
        (reject1 undeclaredEnsureOwnerName db req).1 ≠ .redirect "/goals/approval") ∧
      ((evaluate undeclaredEnsureOwnerName db req).2 = db ∧
        (evaluate undeclaredEnsureOwnerName db req).1 ≠ .redirect "/goals") ∧
      ((reject2 undeclaredEnsureOwnerName db req).2 = db ∧
        (reject2 undeclaredEnsureOwnerName db req).1 ≠ .redirect "/goals/approval") ∧
      ((approve2 undeclaredEnsureOwnerName db req).2 = db ∧
        (approve2 undeclaredEnsureOwnerName db req).1 ≠ .redirect "/goals/approval") ∧
      ((edit undeclaredEnsureOwnerName db req).2 = db ∧
        (edit undeclaredEnsureOwnerName db req).1 ≠ .redirect "/goals") ∧
      submit1 undeclaredEnsureOwnerName dbDraft (requestOf 101 emptyBody) = (.raised, dbDraft) ∧
      approve1 undeclaredEnsureOwnerName dbPending1 (requestOf 102 emptyBody)
        = (.raised, dbPending1) ∧
      reject1 undeclaredEnsureOwnerName dbPending1
          (requestOf 102 { emptyBody with comment := some "insufficient detail" })
        = (.raised, dbPending1) ∧
      evaluate undeclaredEnsureOwnerName dbApproved1
          (requestOf 101 { emptyBody with progress := some 80, grade := some "B", approverId := some 2 })
        = (.raised, dbApproved1) ∧
      approve2 undeclaredEnsureOwnerName dbPending2 (requestOf 102 emptyBody)
        = (.raised, dbPending2) ∧
      reject2 undeclaredEnsureOwnerName dbPending2
          (requestOf 102 { emptyBody with comment := some "not reached" })
        = (.raised, dbPending2) ∧
      edit undeclaredEnsureOwnerName dbDraft (requestOf 101 { emptyBody with title := "t2" })
        = (.raised, dbDraft) := by
  refine ⟨?_, ?_, ?_, ?_, ?_, ?_, ?_, by decide, by decide, by decide, by decide, by decide,
    by decide, by decide⟩
  · unfold submit1 requireLogin
    dsimp only
    repeat' split
    all_goals simp [finish_undeclared]
  · unfold approve1 requireLogin
    dsimp only
    repeat' split
    all_goals simp [finish_undeclared]
  · unfold reject1 requireLogin
    dsimp only
    repeat' split
    all_goals simp [finish_undeclared]
  · unfold evaluate requireLogin
    dsimp only
    repeat' split
    all_goals simp [finish_undeclared]
  · unfold reject2 requireLogin
    dsimp only
    repeat' split
    all_goals simp [finish_undeclared]
  · unfold approve2 requireLogin
    dsimp only
    repeat' split
    all_goals simp [finish_undeclared]
  · unfold edit requireLogin
    dsimp only
    repeat' split
    all_goals simp [editSave_undeclared]

/-! ## The program of `server.js`

The handlers at `undeclaredEnsureOwnerName`: every route that calls
`ensureOwnerName` raises in front of its `save`, so only `POST /goals/add`,
delete and the two admin-fix routes write. -/

theorem undeclared_touches : TouchesOwnerNameOnly undeclaredEnsureOwnerName := by
  intro g g' h
  simp [undeclaredEnsureOwnerName] at h

theorem submit1_undeclared (db : Db) (req : Request) :
    (submit1 undeclaredEnsureOwnerName db req).2 = db := by
  unfold submit1 requireLogin
  dsimp only
  repeat' split
  all_goals rfl

theorem approve1_undeclared (db : Db) (req : Request) :
    (approve1 undeclaredEnsureOwnerName db req).2 = db := by
  unfold approve1 requireLogin
  dsimp only
  repeat' split
  all_goals rfl

theorem reject1_undeclared (db : Db) (req : Request) :
    (reject1 undeclaredEnsureOwnerName db req).2 = db := by
  unfold reject1 requireLogin
  dsimp only
  repeat' split
  all_goals rfl

theorem evaluate_undeclared (db : Db) (req : Request) :
    (evaluate undeclaredEnsureOwnerName db req).2 = db := by
  unfold evaluate requireLogin
  dsimp only
  repeat' split
  all_goals rfl

theorem approve2_undeclared (db : Db) (req : Request) :
    (approve2 undeclaredEnsureOwnerName db req).2 = db := by
  unfold approve2 requireLogin
  dsimp only
  repeat' split
  all_goals rfl

theorem reject2_undeclared (db : Db) (req : Request) :
    (reject2 undeclaredEnsureOwnerName db req).2 = db := by
  unfold reject2 requireLogin
  dsimp only
  repeat' split
  all_goals rfl

theorem edit_undeclared (db : Db) (req : Request) :
    (edit undeclaredEnsureOwnerName db req).2 = db ∧
      (edit undeclaredEnsureOwnerName db req).1 ≠ .redirect "/goals" := by
  unfold edit requireLogin
  dsimp only
  repeat' split
  all_goals simp [editSave_undeclared]

/-- A route that calls `ensureOwnerName` leaves the database as it found
it. -/
theorem transition_undeclared {route : Route} (h : route ∈ transitionRoutes) (db : Db)
    (req : Request) : (handle undeclaredEnsureOwnerName route db req).2 = db := by
  cases route with
  | submit1 => exact submit1_undeclared db req
  | approve1 => exact approve1_undeclared db req
  | reject1 => exact reject1_undeclared db req
  | evaluate => exact evaluate_undeclared db req
  | approve2 => exact approve2_undeclared db req
  | reject2 => exact reject2_undeclared db req
  | edit => exact (edit_undeclared db req).1
  | add => simp [transitionRoutes] at h
  | delete => simp [transitionRoutes] at h
  | adminFix => simp [transitionRoutes] at h
  | adminFixDrafts => simp [transitionRoutes] at h

theorem newGoal_asCreated (e : Employee) (req : Request) : AsCreated (newGoal e req) := by
  refine ⟨Or.inl rfl, rfl, ?_⟩
  show (if req.body.goalLevel == some "低" || req.body.goalLevel == some "中" ||
      req.body.goalLevel == some "高" then req.body.goalLevel else some "中") ≠ none
  split
  · rename_i hc
    intro hn
    rw [hn] at hc
    simp at hc
  · simp

theorem save_forall {P : Goal → Prop} {db db' : Db} {g : Goal} (h : db.save g = some db')
    (hg : P g) (hinv : ∀ x ∈ db.goals, P x) : ∀ x ∈ db'.goals, P x := by
  obtain ⟨_, rfl⟩ := save_eq_some h
  intro x hx
  simp only [List.mem_map] at hx
  obtain ⟨y, hy, rfl⟩ := hx
  split
  · exact hg
  · exact hinv y hy

theorem add_asCreated (db : Db) (req : Request) (hinv : ∀ x ∈ db.goals, AsCreated x) :
    ∀ x ∈ (add db req).2.goals, AsCreated x := by
  unfold add requireLogin
  dsimp only
  repeat' split
  all_goals first
    | exact hinv
    | (obtain rfl := insert_eq_some ‹db.insert _ = some _›
       intro x hx
       simp only [List.mem_append, List.mem_singleton] at hx
       rcases hx with hx | rfl
       · exact hinv x hx
       · exact newGoal_asCreated _ _)

theorem delete_asCreated (db : Db) (req : Request) (hinv : ∀ x ∈ db.goals, AsCreated x) :
    ∀ x ∈ (delete db req).2.goals, AsCreated x := by
  unfold delete requireLogin
  dsimp only
  repeat' split
  all_goals first
    | exact hinv
    | exact fun x hx => hinv x (List.mem_of_mem_eraseP hx)

theorem adminFix_asCreated (db : Db) (req : Request) (hinv : ∀ x ∈ db.goals, AsCreated x) :
    ∀ x ∈ (adminFix db req).2.goals, AsCreated x := by
  unfold adminFix requireLogin isAdmin
  dsimp only
  repeat' split
  all_goals first
    | exact hinv
    | (rename_i _ g hgoal _ a ha _ approverEmp hemp _ db' hsave
       have hg := hinv g (findGoalById_mem hgoal)
       have hca : g.currentApprover ≠ none := by rw [ha]; simp
       refine save_forall hsave ?_ hinv
       split
       · exact ⟨Or.inr ⟨rfl, hca⟩, hg.2.1, hg.2.2⟩
       · rename_i hd
         refine ⟨?_, hg.2.1, hg.2.2⟩
         rcases hg.1 with h | h
         · exact absurd (by simp [h]) hd
         · exact Or.inr h)

theorem adminFixDraftsLoop_asCreated (now : Nat) (drafts : List Goal)
    (hd : ∀ g ∈ drafts, g.progress = some 0 ∧ g.goalLevel ≠ none) :
    ∀ (db : Db) (count : Nat), (∀ x ∈ db.goals, AsCreated x) →
      ∀ x ∈ (adminFixDraftsLoop now drafts db count).2.goals, AsCreated x := by
  induction drafts with
  | nil => intro db count hinv; exact hinv
  | cons g rest ih =>
    have hrest : ∀ x ∈ rest, x.progress = some 0 ∧ x.goalLevel ≠ none :=
      fun x hx => hd x (List.mem_cons_of_mem _ hx)
    have hg := hd g (List.mem_cons_self _ _)
    intro db count hinv
    unfold adminFixDraftsLoop
    dsimp only
    split
    · exact ih hrest db count hinv
    · rename_i approverEmp hemp
      have hca : g.currentApprover ≠ none := by
        intro hn
        rw [hn] at hemp
        simp [Db.findEmployeeById] at hemp
      split
      · exact hinv
      · rename_i db' hsave
        exact ih hrest _ _ (save_forall hsave ⟨Or.inr ⟨rfl, hca⟩, hg.1, hg.2⟩ hinv)

theorem adminFixDrafts_asCreated (db : Db) (req : Request) (hinv : ∀ x ∈ db.goals, AsCreated x) :
    ∀ x ∈ (adminFixDrafts db req).2.goals, AsCreated x := by
  have hd : ∀ g ∈ db.goals.filter (fun g => g.status == .draft && g.currentApprover.isSome),
      g.progress = some 0 ∧ g.goalLevel ≠ none :=
    fun g hg => (hinv g (List.mem_of_mem_filter hg)).2
  unfold adminFixDrafts requireLogin isAdmin
  dsimp only
  repeat' split
  all_goals first
    | exact hinv
    | exact adminFixDraftsLoop_asCreated _ _ hd _ _ hinv

/-- Every request to the program of `server.js` keeps the stored goals as
they were created, but for the step from draft to `pending1` of the
admin-fix routes. -/
theorem handle_asCreated (route : Route) (db : Db) (req : Request)
    (hinv : ∀ x ∈ db.goals, AsCreated x) :
    ∀ x ∈ (handle undeclaredEnsureOwnerName route db req).2.goals, AsCreated x := by
  by_cases h : route ∈ transitionRoutes
  · rw [transition_undeclared h]
    exact hinv
  · cases route with
    | add => exact add_asCreated db req hinv
    | delete => exact delete_asCreated db req hinv
    | adminFix => exact adminFix_asCreated db req hinv
    | adminFixDrafts => exact adminFixDrafts_asCreated db req hinv
    | submit1 => exact absurd (by simp [transitionRoutes]) h
    | approve1 => exact absurd (by simp [transitionRoutes]) h
    | reject1 => exact absurd (by simp [transitionRoutes]) h
    | evaluate => exact absurd (by simp [transitionRoutes]) h
    | approve2 => exact absurd (by simp [transitionRoutes]) h
    | reject2 => exact absurd (by simp [transitionRoutes]) h
    | edit => exact absurd (by simp [transitionRoutes]) h

theorem reachable_asCreated {db : Db} (hr : Reachable undeclaredEnsureOwnerName db) :
    ∀ x ∈ db.goals, AsCreated x := by
  induction hr with
  | init es => intro x hx; simp at hx
  | employees es _ ih => exact ih
  | step route req _ ih => exact handle_asCreated route _ req ih

theorem dbDraft_reachable : Reachable undeclaredEnsureOwnerName dbDraft :=
  Reachable.step .add (requestOf 101 { emptyBody with title := "t", approverId := some 2 })
    (Reachable.init [e1, a1])

theorem dbAwaiting_reachable : Reachable undeclaredEnsureOwnerName dbAwaiting :=
  Reachable.step .adminFix (adminRequestOf 100 emptyBody) dbDraft_reachable

/-! ## Invariants of the program of `server.js` -/

/-- C1: in the program of `server.js` none of the goal operations submit1,
approve1, reject1, evaluate, approve2, reject2 and edit (with or without the
resubmit flag) changes the stored status of a goal, because the call
`ensureOwnerName(goal)` in front of `goal.save()` raises.  So every change
of status from `s` to `s'` by one of them is along a defined edge, and a
completed goal stays completed. -/
theorem status_changes_follow_edges (route : Route) (db : Db) (req : Request) (id : ObjectId)
    (g : Goal) (hroute : route ∈ transitionRoutes) (hg : db.findGoalById id = some g) :
    ∃ g', (handle undeclaredEnsureOwnerName route db req).2.findGoalById id = some g' ∧
      (g'.status ≠ g.status → definedEdge g.status g'.status = true) ∧
      (g.status = .completed → g'.status = .completed) ∧ g'.status = g.status := by
  rw [transition_undeclared hroute]
  exact ⟨g, hg, fun h => absurd rfl h, fun h => h, rfl⟩

/-- C1 witness: the creator E1 requests `submit1` for the completed goal
7. -/
theorem status_changes_follow_edges_witness :
    dbDone.statusOf 7 = some .completed ∧
      ∃ g', (handle undeclaredEnsureOwnerName .submit1 dbDone (requestOf 101 emptyBody)).2.findGoalById 7
          = some g' ∧
        (g'.status ≠ ((dbDone.findGoalById 7).get (by decide)).status →
          definedEdge ((dbDone.findGoalById 7).get (by decide)).status g'.status = true) ∧
        (((dbDone.findGoalById 7).get (by decide)).status = .completed → g'.status = .completed) ∧
        g'.status = ((dbDone.findGoalById 7).get (by decide)).status :=
  ⟨by decide, status_changes_follow_edges .submit1 dbDone (requestOf 101 emptyBody) 7
    ((dbDone.findGoalById 7).get (by decide)) (by decide) (by decide)⟩

/-- C3: every goal of a database that the program of `server.js` reaches
from an empty collection, and whose status is `pending1` or `pending2`, has
a `currentApprover`: only the two admin-fix routes store `pending1`, and
both ask for a `currentApprover`.  A goal created without approver and then
submitted with `submit1` stays a draft, because `submit1` raises in front of
its `save`. -/
theorem pending_goal_has_approver (db : Db) (hr : Reachable undeclaredEnsureOwnerName db) (g : Goal)
    (hg : g ∈ db.goals) (hs : g.status = .pending1 ∨ g.status = .pending2) :
    g.currentApprover ≠ none ∧
      (dbDraftNoApprover.findGoalById 7).map (fun x => (x.status, x.currentApprover))
        = some (.draft, none) ∧
      submit1 undeclaredEnsureOwnerName dbDraftNoApprover (requestOf 101 emptyBody)
        = (.raised, dbDraftNoApprover) := by
  refine ⟨?_, by decide, by decide⟩
  rcases (reachable_asCreated hr g hg).1 with h | ⟨_, h⟩
  · rcases hs with hs | hs <;> rw [h] at hs <;> simp at hs
  · exact h

/-- C3 witness: goal 7 after admin-fix awaits the first approval by A1. -/
theorem pending_goal_has_approver_witness :
    ((dbAwaiting.findGoalById 7).get (by decide)).status = .pending1 ∧
      (((dbAwaiting.findGoalById 7).get (by decide)).currentApprover ≠ none ∧
        (dbDraftNoApprover.findGoalById 7).map (fun x => (x.status, x.currentApprover))
          = some (.draft, none) ∧
        submit1 undeclaredEnsureOwnerName dbDraftNoApprover (requestOf 101 emptyBody)
          = (.raised, dbDraftNoApprover)) :=
  ⟨by decide, pending_goal_has_approver dbAwaiting dbAwaiting_reachable
    ((dbAwaiting.findGoalById 7).get (by decide)) (by decide) (Or.inl (by decide))⟩

/-- C21: every goal of a database that the program of `server.js` reaches
from an empty collection has an integer `progress` between 0 and 100: it is
the 0 that `POST /goals/add` stores, since evaluate, the one route that
assigns `progress`, raises in front of its `save` and leaves the database as
it was, whatever value the request carries. -/
theorem progress_in_range (db : Db) (hr : Reachable undeclaredEnsureOwnerName db) (g : Goal)
    (hg : g ∈ db.goals) :
    (∃ p : Int, g.progress = some p ∧ 0 ≤ p ∧ p ≤ 100) ∧
      ∀ req : Request, (evaluate undeclaredEnsureOwnerName db req).2 = db :=
  ⟨⟨0, (reachable_asCreated hr g hg).2.1, le_refl _, by decide⟩,
    fun req => evaluate_undeclared db req⟩

/-- C21 witness: goal 7 after admin-fix. -/
theorem progress_in_range_witness :
    (∃ p : Int, ((dbAwaiting.findGoalById 7).get (by decide)).progress = some p ∧ 0 ≤ p ∧ p ≤ 100) ∧
      ∀ req : Request, (evaluate undeclaredEnsureOwnerName dbAwaiting req).2 = dbAwaiting :=
  progress_in_range dbAwaiting dbAwaiting_reachable ((dbAwaiting.findGoalById 7).get (by decide))
    (by decide)

/-! ## Authorization in the program of `server.js` -/

theorem finish_not_forbidden (ensureOwnerName : Goal → Option Goal) (db : Db) (goal : Goal)
    (path : String) (m : String) :
    (finish ensureOwnerName db goal (.redirect path)).1 ≠ .status 403 m := by
  rcases finish_cases ensureOwnerName db goal (.redirect path) with h | ⟨_, _, _, _, h⟩ <;>
    rw [h] <;> simp

/-- C6 (the code at the failing input): goal 7 has `createdBy` E1; its first
`submit1` entry was recorded by A1, who then rejected it.  A1 is not an
admin and not `createdBy`, yet `isCreatorOfGoal` answers true for A1 through
its fallback on the history, so `submit1` does not answer 403 for any
callee: in `server.js` it goes on to the call of `ensureOwnerName` and
raises.  The routes edit and delete, which read the history only when
`createdBy` is missing, refuse A1 with 403. -/
theorem submit1_admits_first_submitter :
    (dbSubmittedByOther.findGoalById 7).map (fun g => (g.createdBy, g.status))
        = some (some 1, .rejected) ∧
      dbSubmittedByOther.findEmployeeByUserId 102 = some a1 ∧
      (requestOf 102 emptyBody).session.admin = false ∧
      isCreatorOfGoal (dbSubmittedByOther.findGoalById 7) (some a1) = true ∧
      submit1 undeclaredEnsureOwnerName dbSubmittedByOther (requestOf 102 emptyBody)
        = (.raised, dbSubmittedByOther) ∧
      (∀ (ensureOwnerName : Goal → Option Goal) (m : String),
        (submit1 ensureOwnerName dbSubmittedByOther (requestOf 102 emptyBody)).1 ≠ .status 403 m) ∧
      edit undeclaredEnsureOwnerName dbSubmittedByOther (requestOf 102 { emptyBody with title := "t" })
        = (.status 403 "権限なし", dbSubmittedByOther) ∧
      delete dbSubmittedByOther (requestOf 102 emptyBody)
        = (.status 403 "権限なし", dbSubmittedByOther) := by
  refine ⟨by decide, by decide, by decide, by decide, by decide, ?_, by decide, by decide⟩
  intro ensureOwnerName m
  rw [@submit1_pass ensureOwnerName dbSubmittedByOther (requestOf 102 emptyBody) 102 a1
    ((dbSubmittedByOther.findGoalById 7).get (by decide)) rfl (by decide) (by decide)
    (Or.inr (by decide))]
  exact finish_not_forbidden _ _ _ _ _

/-- C8 (counterexample): the session of A2 has admin rights, goal 7 is a
draft created by E1 with approver A1, and `edit` refuses A2 with 403 without
writing. -/
theorem edit_refuses_admin :
    (adminRequestOf 103 { emptyBody with title := "t2" }).session.admin = true ∧
      (dbStored .draft []).findEmployeeByUserId 103 = some a2 ∧
      (dbStored .draft []).statusOf 7 = some .draft ∧
      edit undeclaredEnsureOwnerName (dbStored .draft []) (adminRequestOf 103 { emptyBody with title := "t2" })
        = (.status 403 "権限なし", dbStored .draft []) := by
  decide

/-- C8 (amended): an admin who has an employee record passes the
authorization guard of `submit1`, `approve1`, `reject1`, `approve2`,
`reject2` and (on an `approved1` goal) `evaluate` even when they are neither
creator nor approver: the request is not answered 403, whatever the callee
`ensureOwnerName` does, and in `server.js` the five routes without further
checks go on to that call and raise.  `edit` has no admin bypass and refuses
with 403 whoever is not the creator, leaving the database as it was. -/
theorem admin_passes_guards_except_edit (ensureOwnerName : Goal → Option Goal) (db : Db)
    (req : Request) (u : ObjectId) (e : Employee) (g : Goal)
    (hu : req.session.userId = some u) (he : db.findEmployeeByUserId u = some e)
    (hg : db.findGoalById req.id = some g) (hadmin : req.session.admin = true) :
    ((∀ m, (submit1 ensureOwnerName db req).1 ≠ .status 403 m) ∧
        submit1 undeclaredEnsureOwnerName db req = (.raised, db)) ∧
      ((∀ m, (approve1 ensureOwnerName db req).1 ≠ .status 403 m) ∧
        approve1 undeclaredEnsureOwnerName db req = (.raised, db)) ∧
      ((∀ m, (reject1 ensureOwnerName db req).1 ≠ .status 403 m) ∧
        reject1 undeclaredEnsureOwnerName db req = (.raised, db)) ∧
      ((∀ m, (approve2 ensureOwnerName db req).1 ≠ .status 403 m) ∧
        approve2 undeclaredEnsureOwnerName db req = (.raised, db)) ∧
      ((∀ m, (reject2 ensureOwnerName db req).1 ≠ .status 403 m) ∧
        reject2 undeclaredEnsureOwnerName db req = (.raised, db)) ∧
      (g.status = .approved1 → ∀ m, (evaluate ensureOwnerName db req).1 ≠ .status 403 m) ∧
      (creatorId g ≠ some e._id → edit ensureOwnerName db req = (.status 403 "権限なし", db)) := by
  refine ⟨⟨?_, ?_⟩, ⟨?_, ?_⟩, ⟨?_, ?_⟩, ⟨?_, ?_⟩, ⟨?_, ?_⟩, ?_, ?_⟩
  · intro m
    rw [submit1_pass hu he hg (Or.inl hadmin)]
    exact finish_not_forbidden _ _ _ _ _
  · rw [submit1_pass hu he hg (Or.inl hadmin)]
    rfl
  · intro m
    rw [approve1_pass hu he hg (Or.inl hadmin)]
    exact finish_not_forbidden _ _ _ _ _
  · rw [approve1_pass hu he hg (Or.inl hadmin)]
    rfl
  · intro m
    rw [reject1_pass hu he hg (Or.inl hadmin)]
    exact finish_not_forbidden _ _ _ _ _
  · rw [reject1_pass hu he hg (Or.inl hadmin)]
    rfl
  · intro m
    rw [approve2_pass hu he hg (Or.inl hadmin)]
    exact finish_not_forbidden _ _ _ _ _
  · rw [approve2_pass hu he hg (Or.inl hadmin)]
    rfl
  · intro m
    rw [reject2_pass hu he hg (Or.inl hadmin)]
    exact finish_not_forbidden _ _ _ _ _
  · rw [reject2_pass hu he hg (Or.inl hadmin)]
    rfl
  · intro hs m
    cases ha : db.findEmployeeById req.body.approverId with
    | none => simp [evaluate, requireLogin, hu, he, hg, hs, hadmin, ha]
    | some a =>
      rw [evaluate_pass hu he hg hs (Or.inl hadmin) ha]
      exact finish_not_forbidden _ _ _ _ _
  · intro hc
    simp [edit, requireLogin, hu, he, hg, hc]

/-- C8 witness: the admin session of A2, who is neither the creator E1 nor
the approver A1 of goal 7, which awaits its evaluation. -/
theorem admin_passes_guards_except_edit_witness :
    ((dbApprovedOnce.findGoalById 7).map (fun g => (g.createdBy, g.currentApprover, g.status))
        = some (some 1, some 2, .approved1) ∧ a2._id = 3) ∧
      (((∀ m, (submit1 undeclaredEnsureOwnerName dbApprovedOnce
            (adminRequestOf 103 { emptyBody with approverId := some 2 })).1 ≠ .status 403 m) ∧
          submit1 undeclaredEnsureOwnerName dbApprovedOnce
            (adminRequestOf 103 { emptyBody with approverId := some 2 }) = (.raised, dbApprovedOnce)) ∧
        ((∀ m, (approve1 undeclaredEnsureOwnerName dbApprovedOnce
            (adminRequestOf 103 { emptyBody with approverId := some 2 })).1 ≠ .status 403 m) ∧
          approve1 undeclaredEnsureOwnerName dbApprovedOnce
            (adminRequestOf 103 { emptyBody with approverId := some 2 }) = (.raised, dbApprovedOnce)) ∧
        ((∀ m, (reject1 undeclaredEnsureOwnerName dbApprovedOnce
            (adminRequestOf 103 { emptyBody with approverId := some 2 })).1 ≠ .status 403 m) ∧
          reject1 undeclaredEnsureOwnerName dbApprovedOnce
            (adminRequestOf 103 { emptyBody with approverId := some 2 }) = (.raised, dbApprovedOnce)) ∧
        ((∀ m, (approve2 undeclaredEnsureOwnerName dbApprovedOnce
            (adminRequestOf 103 { emptyBody with approverId := some 2 })).1 ≠ .status 403 m) ∧
          approve2 undeclaredEnsureOwnerName dbApprovedOnce
            (adminRequestOf 103 { emptyBody with approverId := some 2 }) = (.raised, dbApprovedOnce)) ∧
        ((∀ m, (reject2 undeclaredEnsureOwnerName dbApprovedOnce
            (adminRequestOf 103 { emptyBody with approverId := some 2 })).1 ≠ .status 403 m) ∧
          reject2 undeclaredEnsureOwnerName dbApprovedOnce
            (adminRequestOf 103 { emptyBody with approverId := some 2 }) = (.raised, dbApprovedOnce)) ∧
        (((dbApprovedOnce.findGoalById 7).get (by decide)).status = .approved1 →
          ∀ m, (evaluate undeclaredEnsureOwnerName dbApprovedOnce
            (adminRequestOf 103 { emptyBody with approverId := some 2 })).1 ≠ .status 403 m) ∧
        (creatorId ((dbApprovedOnce.findGoalById 7).get (by decide)) ≠ some a2._id →
          edit undeclaredEnsureOwnerName dbApprovedOnce (adminRequestOf 103 { emptyBody with approverId := some 2 })
            = (.status 403 "権限なし", dbApprovedOnce))) :=
  ⟨by decide, admin_passes_guards_except_edit undeclaredEnsureOwnerName dbApprovedOnce
    (adminRequestOf 103 { emptyBody with approverId := some 2 }) 103 a2
    ((dbApprovedOnce.findGoalById 7).get (by decide)) rfl (by decide) (by decide) (by decide)⟩

/-! ## The scenarios in the program of `server.js`

Each transition of the approval cycle is assigned to the in-memory document
and then lost: the call of `ensureOwnerName` between the assignment and
`goal.save()` raises. -/

/-- C9 (the code at the failing input): E1 creates goal 7 with title "t" and
approver A1, which is stored as a draft with `currentApprover` A1.  E1 then
requests `submit1`: the handler raises in front of `goal.save()`, the goal
stays a draft and its history holds the `create` entry only. -/
theorem create_then_submit1_raises :
    (add db0 (requestOf 101 { emptyBody with title := "t", approverId := some 2 })).1
        = .redirect "/goals" ∧
      (dbDraft.findGoalById 7).map (fun g => (g.status, g.currentApprover)) = some (.draft, some 2) ∧
      submit1 undeclaredEnsureOwnerName dbDraft (requestOf 101 emptyBody) = (.raised, dbDraft) ∧
      (dbDraft.findGoalById 7).map (fun g => g.history.map (fun h => h.action)) = some [.create] := by
  decide

/-- C10 (the code at the failing input): goal 7, created by E1 and put to
`pending1` by admin-fix, has `currentApprover` A1.  A1 requests `approve1`:
the handler raises in front of `goal.save()` and the goal stays
`pending1`. -/
theorem approve1_by_approver_raises :
    Reachable undeclaredEnsureOwnerName dbAwaiting ∧
      (dbAwaiting.findGoalById 7).map (fun g => (g.status, g.currentApprover))
        = some (.pending1, some 2) ∧
      dbAwaiting.findEmployeeByUserId 102 = some a1 ∧
      (requestOf 102 emptyBody).session.admin = false ∧
      approve1 undeclaredEnsureOwnerName dbAwaiting (requestOf 102 emptyBody) = (.raised, dbAwaiting) :=
  ⟨dbAwaiting_reachable, by decide, by decide, by decide, by decide⟩

/-- C11 (the code at the failing input): goal 7 is `approved1`, created by
E1, with `currentApprover` A1.  E1 posts evaluate with progress 80, grade
"B" and approver A2: the handler raises in front of `goal.save()`; the goal
stays `approved1` with progress 0, no grade and `currentApprover` A1, and no
`submit2` entry is recorded. -/
theorem evaluate_by_creator_raises :
    (dbApprovedOnce.findGoalById 7).map (fun g => (g.createdBy, g.status)) = some (some 1, .approved1) ∧
      dbApprovedOnce.findEmployeeById (some 3) = some a2 ∧
      evaluate undeclaredEnsureOwnerName dbApprovedOnce
          (requestOf 101 { emptyBody with progress := some 80, grade := some "B", approverId := some 3 })
        = (.raised, dbApprovedOnce) ∧
      (dbApprovedOnce.findGoalById 7).map
          (fun g => (g.progress, g.grade, g.currentApprover, g.history.map (fun h => h.action)))
        = some (some 0, none, some 2, [.create, .submit1, .approve1]) := by
  decide

/-- C12 (the code at the failing input): A1, the `currentApprover` of the
`pending1` goal 7, posts `reject1` with the comment "insufficient detail":
the handler raises in front of `goal.save()`, the goal stays `pending1` and
its last history entry is still the `submit1` entry.  Likewise `reject2` on
the goal at the second stage. -/
theorem reject_by_approver_raises :
    Reachable undeclaredEnsureOwnerName dbAwaiting ∧
      reject1 undeclaredEnsureOwnerName dbAwaiting
          (requestOf 102 { emptyBody with comment := some "insufficient detail" })
        = (.raised, dbAwaiting) ∧
      (dbAwaiting.findGoalById 7).map (fun g => (g.status, g.currentApprover, lastAction g))
        = some (.pending1, some 2, some .submit1) ∧
      reject2 undeclaredEnsureOwnerName dbSecondStage
          (requestOf 102 { emptyBody with comment := some "not reached" })
        = (.raised, dbSecondStage) ∧
      (dbSecondStage.findGoalById 7).map (fun g => (g.status, g.currentApprover, lastAction g))
        = some (.pending2, some 2, some .submit2) :=
  ⟨dbAwaiting_reachable, by decide, by decide, by decide, by decide⟩

/-- C13 (the code at the failing input): goal 7 was rejected by A1 at the
second stage.  Its creator E1 resubmits through edit with the resubmit flag:
the handler raises at the first call of `ensureOwnerName`, nothing is
stored, and the goal stays `rejected`. -/
theorem resubmit_after_reject2_raises :
    (dbRejectedSecond.findGoalById 7).map (fun g => (g.status, lastAction g, g.currentApprover))
        = some (.rejected, some .reject2, some 2) ∧
      edit undeclaredEnsureOwnerName dbRejectedSecond
          (requestOf 101 { emptyBody with title := "t", resubmit := true })
        = (.raised, dbRejectedSecond) ∧
      edit undeclaredEnsureOwnerName dbRejectedSecond
          (requestOf 101 { emptyBody with title := "t", resubmit := true, approverId := some 2 })
        = (.raised, dbRejectedSecond) := by
  decide

/-- C14 (the code at the failing input): the resubmission block of the edit
route makes a goal whose last entry is `reject2` `pending2` with one
`submit2` entry, and any other goal `pending1` with one `submit1` entry; but
the route never reaches the block: for every database and request it leaves
the database as it was and does not answer with its success redirect.  The
creator E1 resubmitting the goal rejected at the second stage, or the draft,
gets an exception and the goal keeps its status and history. -/
theorem edit_resubmit_never_succeeds :
    (dbRejectedSecond.findGoalById 7).map
        (fun g => ((resubmitted g e1 0).status,
          ((resubmitted g e1 0).history.drop g.history.length).map (fun h => h.action)))
        = some (.pending2, [.submit2]) ∧
      (dbDraft.findGoalById 7).map
        (fun g => ((resubmitted g e1 0).status,
          ((resubmitted g e1 0).history.drop g.history.length).map (fun h => h.action)))
        = some (.pending1, [.submit1]) ∧
      (∀ (db : Db) (req : Request), (edit undeclaredEnsureOwnerName db req).2 = db ∧
        (edit undeclaredEnsureOwnerName db req).1 ≠ .redirect "/goals") ∧
      edit undeclaredEnsureOwnerName dbRejectedSecond
          (requestOf 101 { emptyBody with title := "t", resubmit := true })
        = (.raised, dbRejectedSecond) ∧
      edit undeclaredEnsureOwnerName dbDraft
          (requestOf 101 { emptyBody with title := "t", resubmit := true })
        = (.raised, dbDraft) :=
  ⟨by decide, by decide, edit_undeclared, by decide, by decide⟩

/-- C15 (the code at the failing input): goal 7 was rejected by A1 at the
second stage.  Its creator E1 requests `submit1`: whatever the callee
`ensureOwnerName`, the document the handler hands to it is `pending1` with
a `submit1` entry, not `pending2` with a `submit2` entry; and in `server.js`
the call raises, so the goal stays `rejected`. -/
theorem submit1_after_reject2_raises :
    (dbRejectedSecond.findGoalById 7).map (fun g => (g.status, lastAction g))
        = some (.rejected, some .reject2) ∧
      (∀ ensureOwnerName : Goal → Option Goal,
        submit1 ensureOwnerName dbRejectedSecond (requestOf 101 emptyBody)
          = finish ensureOwnerName dbRejectedSecond
              { (dbRejectedSecond.findGoalById 7).get (by decide) with
                status := .pending1
                history := ((dbRejectedSecond.findGoalById 7).get (by decide)).history ++
                  [{ action := .submit1, by_ := some 1, date := 0, comment := none }] }
              (.redirect "/goals")) ∧
      submit1 undeclaredEnsureOwnerName dbRejectedSecond (requestOf 101 emptyBody)
        = (.raised, dbRejectedSecond) := by
  refine ⟨by decide, fun ensureOwnerName => ?_, by decide⟩
  exact @submit1_pass ensureOwnerName dbRejectedSecond (requestOf 101 emptyBody) 101 e1
    ((dbRejectedSecond.findGoalById 7).get (by decide)) rfl (by decide) (by decide)
    (Or.inr (by decide))

/-- C16 (the code at the failing input): A1 posts `reject1` for the pending
goal 7 without a comment.  The handler does not look at the comment:
whatever the callee `ensureOwnerName`, it hands over the document as
`rejected` with an entry that has no comment, and in `server.js` the answer
is the exception of that call, the same as for a request with a comment, not
a validation error.  Likewise `reject2` without comment and evaluate without
a progress value. -/
theorem missing_fields_not_validated :
    (∀ ensureOwnerName : Goal → Option Goal,
        reject1 ensureOwnerName dbAwaiting (requestOf 102 emptyBody)
          = finish ensureOwnerName dbAwaiting
              { (dbAwaiting.findGoalById 7).get (by decide) with
                status := .rejected
                history := ((dbAwaiting.findGoalById 7).get (by decide)).history ++
                  [{ action := .reject1, by_ := some 2, date := 0, comment := none }] }
              (.redirect "/goals/approval")) ∧
      reject1 undeclaredEnsureOwnerName dbAwaiting (requestOf 102 emptyBody) = (.raised, dbAwaiting) ∧
      reject1 undeclaredEnsureOwnerName dbAwaiting (requestOf 102 { emptyBody with comment := some "" })
        = (.raised, dbAwaiting) ∧
      reject1 undeclaredEnsureOwnerName dbAwaiting
          (requestOf 102 { emptyBody with comment := some "insufficient detail" })
        = (.raised, dbAwaiting) ∧
      reject2 undeclaredEnsureOwnerName dbSecondStage (requestOf 102 emptyBody)
        = (.raised, dbSecondStage) ∧
      (∀ ensureOwnerName : Goal → Option Goal,
        evaluate ensureOwnerName dbApprovedOnce (requestOf 101 { emptyBody with approverId := some 3 })
          = finish ensureOwnerName dbApprovedOnce
              { (dbApprovedOnce.findGoalById 7).get (by decide) with
                progress := none
                grade := none
                status := .pending2
                currentApprover := some 3
                history := ((dbApprovedOnce.findGoalById 7).get (by decide)).history ++
                  [{ action := .submit2, by_ := some 1, date := 0, comment := none }] }
              (.redirect "/goals")) ∧
      evaluate undeclaredEnsureOwnerName dbApprovedOnce
          (requestOf 101 { emptyBody with approverId := some 3 })
        = (.raised, dbApprovedOnce) := by
  refine ⟨fun ensureOwnerName => ?_, by decide, by decide, by decide, by decide,
    fun ensureOwnerName => ?_, by decide⟩
  · exact @reject1_pass ensureOwnerName dbAwaiting (requestOf 102 emptyBody) 102 a1
      ((dbAwaiting.findGoalById 7).get (by decide)) rfl (by decide) (by decide)
      (Or.inr (by decide))
  · exact @evaluate_pass ensureOwnerName dbApprovedOnce
      (requestOf 101 { emptyBody with approverId := some 3 }) 101 e1 a2
      ((dbApprovedOnce.findGoalById 7).get (by decide)) rfl (by decide) (by decide) (by decide)
      (Or.inr (by decide)) (by decide)

/-- C18 (the code at the failing input): E1 creates goal 7 with approver A1.
The stored `ownerId` is the creator E1 and `currentApprover` is A1, in a
database reached by `POST /goals/add` alone.  The route admin-fix, run on
that goal, sets `ownerId` to the approver. -/
theorem ownerId_is_creator_after_add :
    Reachable undeclaredEnsureOwnerName dbDraft ∧
      (dbDraft.findGoalById 7).map (fun g => (g.createdBy, g.ownerId, g.currentApprover))
        = some (some 1, some 1, some 2) ∧
      (dbAwaiting.findGoalById 7).map (fun g => (g.createdBy, g.ownerId, g.currentApprover))
        = some (some 1, some 2, some 2) :=
  ⟨dbDraft_reachable, by decide, by decide⟩

/-- C28 (the code at the failing input): goal 7 as E1 created it has
`ownerId` E1, last action `create` and `currentApprover` A1.  The first-level
branch of the resubmission block sets `currentApprover` to `ownerId`, for
goal 7 to E1, also when the form named A1; but the edit route raises at its
first call of `ensureOwnerName`, in front of the block, so the resubmission
by E1 stores nothing and `currentApprover` stays A1. -/
theorem resubmit_first_level_raises :
    Reachable undeclaredEnsureOwnerName dbDraft ∧
      (dbDraft.findGoalById 7).map (fun g => (g.ownerId, lastAction g, g.currentApprover))
        = some (some 1, some .create, some 2) ∧
      (∀ (g : Goal) (e : Employee) (now : Nat), lastAction g ≠ some .reject2 →
        (resubmitted g e now).status = .pending1 ∧
          (resubmitted g e now).currentApprover
            = if g.ownerId.isSome then g.ownerId else g.currentApprover) ∧
      (dbDraft.findGoalById 7).map
          (fun g => (resubmitted (edited g { emptyBody with title := "t" } (some 2)) e1 0).currentApprover)
        = some (some 1) ∧
      edit undeclaredEnsureOwnerName dbDraft
          (requestOf 101 { emptyBody with title := "t", resubmit := true, approverId := some 2 })
        = (.raised, dbDraft) := by
  refine ⟨dbDraft_reachable, by decide, fun g e now h => ?_, by decide, by decide⟩
  rw [resubmitted_other h]
  exact ⟨rfl, rfl⟩

end Dxpro
